import Mathlib

/-!
Verification of the session-management core of the `logging.email` backend
(`src/backend/lib/services/session.py`), shallowly embedded in Lean 4.

Modelling conventions:
* Machine time (`datetime.utcnow()`) is an explicit `now : Nat` parameter
  (seconds); timedeltas become `Nat` constants built from the configuration
  defaults in `src/backend/config.py`.
* SHA-256 hashing (`hash_token`) and the external user-agent parser are
  collaborators: every use of a refresh-token plaintext in the service is
  immediately hashed, so the operations are embedded at the level of the
  token hash (a deterministic function of the plaintext, hence "presenting
  the same token" = "presenting the same hash"); the fingerprint extractor's
  outputs (`user_agent_hash`, `os_family`, `browser_family`) travel as
  fields of the request context.
* `uuid.uuid4()` / `secrets.token_urlsafe(32)` are external entropy: freshly
  generated identifiers are explicit parameters of the operations.
* A Python value that is absent or falsy in `request_data.get(...)` is
  `none`; present values are `some`.
* The database is the committed state; SQLAlchemy's unit-of-work semantics
  (mutations on a loaded row become visible at the next `db.commit()`,
  whichever function issues it) are reflected by threading the mutated
  record into the store at each commit point.
* The Redis cache is a list of `(key, deadline, value)` entries; `SETEX`
  with `ttl = expires_at - now` stores the absolute deadline `expires_at`,
  and a lookup at time `now` only sees entries with `now < deadline`.
  `cache_session` models the session write the source attempts (as if the
  row serialized); `cache_session_actual` / `load_session_actual` model the
  write as executed, where `cache_set`'s `json.dumps` of the ORM row raises
  a `TypeError` that `cache.py` swallows, so the cache is never populated.
-/

/-- Row of the `sessions` table (`models/models.py`, class `Session`). -/
structure SessionRec where
  id : String
  userId : Nat
  createdAt : Nat
  lastSeenAt : Nat
  expiresAt : Nat
  revokedAt : Option Nat
  deviceId : Option String
  clientId : Option String
  userAgentHash : Option String
  osFamily : Option String
  browserFamily : Option String
  lastIp : Option String
  lastAsn : Option Nat
  lastCountry : Option String
  riskScore : Nat
deriving Repr, DecidableEq

/-- Row of the `refresh_tokens` table (`models/models.py`, class `RefreshToken`). -/
structure RefreshTokenRec where
  id : String
  sessionId : String
  tokenHash : String
  expiresAt : Nat
  revokedAt : Option Nat
  replacedBy : Option String
deriving Repr, DecidableEq

/-- Row of the `security_events` table (fields this core writes). -/
structure SecurityEventRec where
  userId : Nat
  sessionId : Option String
  eventType : String
  ip : Option String
  userAgent : Option String
deriving Repr, DecidableEq

/-- The `request_data` dict handed to the session service, with the
fingerprint extractor's outputs included (§4.1 of the spec). -/
structure RequestData where
  deviceId : Option String
  clientId : Option String
  userAgent : Option String
  userAgentHash : Option String
  osFamily : Option String
  browserFamily : Option String
  ip : Option String
  asn : Option Nat
  country : Option String
deriving Repr, DecidableEq

/-- The distinct `HTTPException(status_code=401, detail=...)` outcomes raised
by the service, one constructor per detail string. -/
inductive AuthError where
  /-- "Invalid refresh token" -/
  | invalidToken
  /-- "Session invalid" -/
  | sessionInvalid
  /-- "Session expired" -/
  | sessionExpired
  /-- "Refresh token expired" -/
  | tokenExpired
  /-- "Refresh token reuse detected" -/
  | tokenReuseDetected
  /-- "Suspicious activity detected" (refresh risk path) -/
  | suspiciousActivity
  /-- "Reauthentication required" (authenticate risk path) -/
  | reauthRequired
deriving Repr, DecidableEq

-- Constants from session.py with config.py defaults, in seconds.
def MAX_RISK : Nat := 100
def ROTATE_REFRESH_RISK : Nat := 40
def REAUTH_RISK : Nat := 70
def SESSION_ABSOLUTE_LIMIT : Nat := 90 * 86400
def REFRESH_TOKEN_LIFETIME : Nat := 30 * 86400

/-- `get_geo_info`: MaxMind integration stub, always `{"asn": None, "country": None}`. -/
def get_geo_info (_ip : String) : Option Nat × Option String := (none, none)

/-- `calculate_risk(session, request_data)`: additive per-signal risk delta. -/
def calculate_risk (s : SessionRec) (req : RequestData) : Nat :=
  let deviceRisk : Nat :=
    match req.deviceId with
    | some d => if some d ≠ s.deviceId then 40 else 0
    | none => 0
  let clientRisk : Nat :=
    match req.clientId with
    | some c => if some c ≠ s.clientId then 30 else 0
    | none => 0
  let uaRisk : Nat :=
    match req.userAgentHash with
    | some h =>
        if some h ≠ s.userAgentHash then
          if req.browserFamily = s.browserFamily then 5 else 20
        else 0
    | none => 0
  let ipRisk : Nat :=
    match req.ip with
    | some i =>
        if some i ≠ s.lastIp then
          if req.asn.isSome ∧ req.asn = s.lastAsn then 2
          else if req.country.isSome ∧ req.country = s.lastCountry then 8
          else 25
        else 0
    | none => 0
  deviceRisk + clientRisk + uaRisk + ipRisk

/-- The durable store: `sessions`, `refresh_tokens`, `security_events` tables. -/
structure Store where
  sessions : List SessionRec
  tokens : List RefreshTokenRec
  events : List SecurityEventRec
deriving Repr, DecidableEq

/-- Redis cache: entries `(key, absolute deadline, value)`. -/
abbrev CacheMap := List (String × Nat × SessionRec)

/-- Combined committed state seen by the service. -/
structure State where
  store : Store
  cache : CacheMap
deriving Repr, DecidableEq

def findSession (st : Store) (sid : String) : Option SessionRec :=
  st.sessions.find? (fun s => s.id = sid)

def findTokenByHash (st : Store) (h : String) : Option RefreshTokenRec :=
  st.tokens.find? (fun t => t.tokenHash = h)

/-- Committing a mutated session row: replace the row with the same primary key. -/
def updateSession (st : Store) (s : SessionRec) : Store :=
  { st with sessions := st.sessions.map (fun x => if x.id = s.id then s else x) }

/-- `redis.setex key ttl value` at time `now`: the entry lives until `now + ttl`. -/
def cacheSetEx (c : CacheMap) (k : String) (deadline : Nat) (v : SessionRec) : CacheMap :=
  (k, deadline, v) :: c.filter (fun p => p.1 ≠ k)

/-- `redis.get key` at time `now`: only unexpired entries are visible. -/
def cacheGetAt (c : CacheMap) (k : String) (now : Nat) : Option SessionRec :=
  match c.find? (fun p => p.1 = k) with
  | some (_, d, v) => if now < d then some v else none
  | none => none

/-- `redis.delete key`. -/
def cacheDelete (c : CacheMap) (k : String) : CacheMap :=
  c.filter (fun p => p.1 ≠ k)

/-- `cache_session(session)`: TTL = `expires_at - now`, skipped unless
positive. This models the write the source *attempts*, as if the session row
serialized successfully — the read-through behaviour §4.4 of the spec
describes. In the running program the underlying `cache_set` always fails on
a session row (see `cache_session_actual` below), so the executed behaviour
differs: the cache is never populated. -/
def cache_session (c : CacheMap) (s : SessionRec) (now : Nat) : CacheMap :=
  if now < s.expiresAt then cacheSetEx c s.id s.expiresAt s else c

/-- `cache_set(key, session, ttl)` as actually executed on a session row:
`json.dumps` of a SQLAlchemy `Session` model instance raises `TypeError`,
which `cache_set` swallows (`lib/utils/cache.py` lines 16-22), so the write
is a no-op and the cache is returned unchanged. -/
def cache_set_on_session (c : CacheMap) (_k : String) (_deadline : Nat)
    (_v : SessionRec) : CacheMap := c

/-- `cache_session(session)` as actually executed: the TTL guard runs, but
the underlying write always fails silently, leaving the cache unchanged. -/
def cache_session_actual (c : CacheMap) (s : SessionRec) (now : Nat) : CacheMap :=
  if now < s.expiresAt then cache_set_on_session c s.id s.expiresAt s else c

/-- The `# Update session context` block repeated verbatim in
`authenticate_request` and `refresh_access_token`: when the request carries
an IP, overwrite `last_ip` with it and `last_asn`/`last_country` with the
geo lookup of that IP. -/
def update_context (s : SessionRec) (req : RequestData) : SessionRec :=
  match req.ip with
  | some ip =>
      let geo := get_geo_info ip
      { s with lastIp := some ip, lastAsn := geo.1, lastCountry := geo.2 }
  | none => s

/-- `log_security_event(db, user_id, session_id, event_type, request_data)`. -/
def log_security_event (st : Store) (userId : Nat) (sessionId : Option String)
    (eventType : String) (req : RequestData) : Store :=
  { st with events :=
      st.events ++ [{ userId, sessionId, eventType, ip := req.ip, userAgent := req.userAgent }] }

/-- `load_session(db, session_id)`: cache first, else store, with backfill of
valid sessions. Returns the loaded row and the state (cache possibly backfilled). -/
def load_session (st : State) (sid : String) (now : Nat) : Option SessionRec × State :=
  match cacheGetAt st.cache sid now with
  | some cached => (some cached, st)
  | none =>
    match findSession st.store sid with
    | some s =>
      if s.revokedAt = none ∧ now < s.expiresAt then
        (some s, { st with cache := cache_session st.cache s now })
      else
        (some s, st)
    | none => (none, st)

/-- `revoke_session(db, session, reason)`: commits the (possibly mutated)
session row with `revoked_at = now`, bulk-revokes the session's
not-yet-revoked tokens, evicts the cache entry. The `reason` argument is
accepted and unused, exactly as in the source. -/
def revoke_session (st : State) (session : SessionRec) (_reason : String) (now : Nat) :
    State × SessionRec :=
  let session := { session with revokedAt := some now }
  let store := updateSession st.store session
  let tokens := store.tokens.map (fun t =>
    if t.sessionId = session.id ∧ t.revokedAt = none
    then { t with revokedAt := some now } else t)
  let store := { store with tokens }
  ({ store, cache := cacheDelete st.cache session.id }, session)

/-- The session row built by `create_session`. -/
def created_session (userId : Nat) (req : RequestData) (sessionId : String)
    (now : Nat) : SessionRec :=
  let geo := get_geo_info (req.ip.getD "")
  { id := sessionId, userId, createdAt := now, lastSeenAt := now,
    expiresAt := now + SESSION_ABSOLUTE_LIMIT, revokedAt := none,
    deviceId := req.deviceId,
    clientId := some (req.clientId.getD "web"),
    userAgentHash := req.userAgentHash,
    osFamily := req.osFamily, browserFamily := req.browserFamily,
    lastIp := req.ip, lastAsn := geo.1, lastCountry := geo.2,
    riskScore := 0 }

/-- The first refresh-token row built by `create_session`. -/
def created_token (sessionId tokenId tokenHash : String) (now : Nat) : RefreshTokenRec :=
  { id := tokenId, sessionId, tokenHash,
    expiresAt := now + REFRESH_TOKEN_LIFETIME, revokedAt := none, replacedBy := none }

/-- `create_session(db, user_id, request_data)`: fresh session plus its first
refresh token. `sessionId`, `tokenId` are the generated UUIDs and `tokenHash`
the hash of the generated secret (returned in place of the plaintext). -/
def create_session (st : State) (userId : Nat) (req : RequestData)
    (sessionId tokenId tokenHash : String) (now : Nat) :
    State × SessionRec × String :=
  let session := created_session userId req sessionId now
  let tokenRec := created_token sessionId tokenId tokenHash now
  let store := { st.store with
    sessions := session :: st.store.sessions,
    tokens := tokenRec :: st.store.tokens }
  let store := log_security_event store userId (some sessionId) "session_created" req
  let cache := cache_session st.cache session now
  ({ store, cache }, session, tokenHash)

/-- `authenticate_request(db, session_id, request_data)`. -/
def authenticate_request (st : State) (sid : String) (req : RequestData) (now : Nat) :
    State × Except AuthError SessionRec :=
  let (sOpt, st) := load_session st sid now
  match sOpt with
  | none => (st, .error .sessionInvalid)
  | some session =>
    if session.revokedAt ≠ none then (st, .error .sessionInvalid)
    else if session.expiresAt < now then (st, .error .sessionExpired)
    else
      let risk := calculate_risk session req
      let session := { session with
        riskScore := session.riskScore + risk, lastSeenAt := now }
      if REAUTH_RISK ≤ session.riskScore then
        -- revoke_session's commit also flushes the pending risk/last-seen mutations
        let (st, _) := revoke_session st session "High risk detected" now
        let st := { st with
          store := log_security_event st.store session.userId (some session.id)
            "session_revoked_risk" req }
        (st, .error .reauthRequired)
      else
        let session := update_context session req
        let store := updateSession st.store session
        let cache := cache_session st.cache session now
        ({ store, cache }, .ok session)

/-- `refresh_access_token(db, refresh_token, request_data)`, embedded at the
token-hash level: `tokenHash` is the hash of the presented plaintext,
`newTokenId`/`newTokenHash` the freshly generated successor identifiers. -/
def refresh_access_token (st : State) (tokenHash : String) (req : RequestData)
    (newTokenId newTokenHash : String) (now : Nat) :
    State × Except AuthError (SessionRec × String) :=
  match findTokenByHash st.store tokenHash with
  | none => (st, .error .invalidToken)
  | some tokenRecord =>
    let (sOpt, st) := load_session st tokenRecord.sessionId now
    match sOpt with
    | none => (st, .error .sessionInvalid)
    | some session =>
      if session.revokedAt ≠ none then (st, .error .sessionInvalid)
      else if tokenRecord.revokedAt ≠ none then
        let (st, _) := revoke_session st session "Refresh token reuse detected" now
        let st := { st with
          store := log_security_event st.store session.userId (some session.id)
            "token_reuse_detected" req }
        (st, .error .tokenReuseDetected)
      else if tokenRecord.expiresAt < now then (st, .error .tokenExpired)
      else
        let risk := calculate_risk session req
        if REAUTH_RISK ≤ risk then
          let (st, _) := revoke_session st session "Suspicious activity" now
          let st := { st with
            store := log_security_event st.store session.userId (some session.id)
              "session_revoked_suspicious" req }
          (st, .error .suspiciousActivity)
        else
          let tokenRecord' := { tokenRecord with
            revokedAt := some now, replacedBy := some newTokenId }
          let newToken : RefreshTokenRec :=
            { id := newTokenId, sessionId := session.id, tokenHash := newTokenHash,
              expiresAt := now + REFRESH_TOKEN_LIFETIME,
              revokedAt := none, replacedBy := none }
          let session := { session with
            lastSeenAt := now, riskScore := session.riskScore + risk }
          let session := update_context session req
          let tokens := newToken :: st.store.tokens.map
            (fun t => if t.id = tokenRecord.id then tokenRecord' else t)
          let store := { st.store with tokens }
          let store := updateSession store session
          let cache := cache_session st.cache session now
          ({ store, cache }, .ok (session, newTokenHash))

/-- `revoke_all_sessions` is called with no request context: `{}` in Python. -/
def emptyRequest : RequestData :=
  { deviceId := none, clientId := none, userAgent := none, userAgentHash := none,
    osFamily := none, browserFamily := none, ip := none, asn := none, country := none }

/-- `revoke_all_sessions(db, user_id)`: revoke every active session of the
user, then log `logout_all`. -/
def revoke_all_sessions (st : State) (userId : Nat) (now : Nat) : State :=
  let victims := st.store.sessions.filter
    (fun s => s.userId = userId ∧ s.revokedAt = none)
  let st := victims.foldl (fun acc s => (revoke_session acc s "Logout all" now).1) st
  { st with store := log_security_event st.store userId none "logout_all" emptyRequest }

/-- One client-visible operation of the Session Manager (§4.3), together with
the wall-clock instant at which it runs and the entropy it consumes. -/
inductive Op where
  | create (userId : Nat) (req : RequestData) (sessionId tokenId tokenHash : String) (now : Nat)
  | auth (sid : String) (req : RequestData) (now : Nat)
  | refresh (tokenHash : String) (req : RequestData) (newTokenId newTokenHash : String) (now : Nat)
  | revoke (sid : String) (reason : String) (now : Nat)
  | revokeAll (userId : Nat) (now : Nat)
deriving Repr, DecidableEq

def Op.time : Op → Nat
  | .create _ _ _ _ _ n => n
  | .auth _ _ n => n
  | .refresh _ _ _ _ n => n
  | .revoke _ _ n => n
  | .revokeAll _ n => n

/-- State transition of one operation (results discarded). The route-level
`revoke` looks the session up in the store before calling `revoke_session`. -/
def stepOp (st : State) : Op → State
  | .create u req sid tid th now => (create_session st u req sid tid th now).1
  | .auth sid req now => (authenticate_request st sid req now).1
  | .refresh th req nid nth now => (refresh_access_token st th req nid nth now).1
  | .revoke sid reason now =>
      match findSession st.store sid with
      | some s => (revoke_session st s reason now).1
      | none => st
  | .revokeAll u now => revoke_all_sessions st u now

/-- Freshness of the entropy an operation consumes, guaranteed in the source
by `uuid.uuid4()` / `secrets.token_urlsafe(32)` together with the primary-key
and `token_hash` UNIQUE constraints of the schema. -/
def freshOk (st : State) : Op → Bool
  | .create _ _ sid tid th _ =>
      (findSession st.store sid).isNone &&
      st.store.tokens.all (fun t => t.sessionId != sid) &&
      st.store.tokens.all (fun t => t.id != tid) &&
      (findTokenByHash st.store th).isNone
  | .refresh _ _ nid nth _ =>
      (findTokenByHash st.store nth).isNone &&
      st.store.tokens.all (fun t => t.id != nid)
  | _ => true

def initState : State := { store := { sessions := [], tokens := [], events := [] }, cache := [] }

/-- States reachable from the empty deployment by runs of the five operations
with monotone wall-clock time and fresh entropy. The `Nat` component is a
lower bound on the current time. -/
inductive Reach : State → Nat → Prop where
  | init : Reach initState 0
  | step {st : State} {clock : Nat} (op : Op) :
      Reach st clock → clock ≤ op.time → freshOk st op = true → Reach (stepOp st op) op.time

/-- Every cache entry visible at or after the current instant agrees with the
store (the cache is a read-through mirror of committed session rows). -/
def CacheCoherent (st : State) (clock : Nat) : Prop :=
  ∀ now, clock ≤ now → ∀ sid s, cacheGetAt st.cache sid now = some s →
    findSession st.store sid = some s

/-- Every cache entry's Redis deadline is the cached session's `expires_at`
(that is the TTL `cache_session` always uses). -/
def CacheDeadlines (st : State) : Prop :=
  ∀ e ∈ st.cache, e.2.1 = e.2.2.expiresAt

/-- The non-revoked refresh tokens a session currently owns. -/
def liveTokens (st : Store) (sid : String) : List RefreshTokenRec :=
  st.tokens.filter (fun t => t.sessionId = sid ∧ t.revokedAt = none)

/-- Per-session single-use token invariant: at most one live token each. -/
def TokensOK (st : Store) : Prop :=
  ∀ sid, (liveTokens st sid).length ≤ 1

/-- Primary-key uniqueness of the `sessions` and `refresh_tokens` tables. -/
def KeysOK (st : Store) : Prop :=
  (st.sessions.map (fun s => s.id)).Nodup ∧ (st.tokens.map (fun t => t.id)).Nodup

def SysInv (st : State) (clock : Nat) : Prop :=
  CacheCoherent st clock ∧ CacheDeadlines st ∧ TokensOK st.store ∧ KeysOK st.store

/-- A benign request context matching the scenario session's fingerprint. -/
def reqBase : RequestData :=
  { deviceId := some "d1", clientId := some "web", userAgent := some "UA",
    userAgentHash := some "uah1", osFamily := some "mac", browserFamily := some "chrome",
    ip := some "1.1.1.1", asn := none, country := none }

/-- Scenario: session S1 created at t=100 with its first token hash H1. -/
def stC : State := (create_session initState 7 reqBase "S1" "T1" "H1" 100).1

/-- Scenario: H1 successfully rotated to H2 at t=200. -/
def stR : State := (refresh_access_token stC "H1" reqBase "T2" "H2" 200).1

/-- Scenario: first replay of H1 at t=300 (reuse detection fires). -/
def stReplay : State := (refresh_access_token stR "H1" reqBase "T3" "H3" 300).1

/-- The session row of scenario state `stC`, spelled out. -/
def sessC : SessionRec :=
  { id := "S1", userId := 7, createdAt := 100, lastSeenAt := 100,
    expiresAt := 100 + SESSION_ABSOLUTE_LIMIT, revokedAt := none,
    deviceId := some "d1", clientId := some "web", userAgentHash := some "uah1",
    osFamily := some "mac", browserFamily := some "chrome",
    lastIp := some "1.1.1.1", lastAsn := none, lastCountry := none, riskScore := 0 }

/-- Same context but from an unrecognised device (risk delta 40). -/
def reqNewDevice : RequestData := { reqBase with deviceId := some "d2" }

/-- Same context but from an unrecognised client (risk delta 30). -/
def reqNewClient : RequestData := { reqBase with clientId := some "app" }

/-- New device, new client and a geo-jump IP at once (risk delta 95). -/
def reqJump : RequestData :=
  { reqBase with deviceId := some "dX", clientId := some "appX", ip := some "9.9.9.9" }

/-- Scenario: benign client-id drift authenticated at t=150 (score 30). -/
def stA : State := (authenticate_request stC "S1" reqNewClient 150).1

/-- Scenario: S1 revoked at t=150. -/
def stRevoked1 : State := stepOp stC (Op.revoke "S1" "test" 150)

/-- Scenario: S1 revoked again at t=160. -/
def stRevoked2 : State := stepOp stRevoked1 (Op.revoke "S1" "test" 160)

/-- `load_session(db, session_id)` with the cache backfill as actually
executed (the write silently fails, so the backfill never lands). -/
def load_session_actual (st : State) (sid : String) (now : Nat) :
    Option SessionRec × State :=
  match cacheGetAt st.cache sid now with
  | some cached => (some cached, st)
  | none =>
    match findSession st.store sid with
    | some s =>
      if s.revokedAt = none ∧ now < s.expiresAt then
        (some s, { st with cache := cache_session_actual st.cache s now })
      else
        (some s, st)
    | none => (none, st)

/-- The committed state of the executed program after the scenario create:
the store as in `stC`, but the cache empty because the create-time
`cache_session` write also failed. -/
def stC_actual : State := { store := stC.store, cache := [] }

/-- The pending session mutation `risk_score += delta; last_seen_at = now`
both risk branches of `authenticate_request` share. -/
def risk_updated (s : SessionRec) (req : RequestData) (now : Nat) : SessionRec :=
  { s with riskScore := s.riskScore + calculate_risk s req, lastSeenAt := now }

/-- The session mutation of the rotation branch of `refresh_access_token`
(same fields, written in the source in the other order). -/
def refresh_risk_session (s : SessionRec) (req : RequestData) (now : Nat) : SessionRec :=
  { s with lastSeenAt := now, riskScore := s.riskScore + calculate_risk s req }

/-- Resulting state of the risk-revocation branch of `authenticate_request`. -/
def auth_reauth_result (st1 : State) (s : SessionRec) (req : RequestData) (now : Nat) :
    State :=
  let st2 := (revoke_session st1 (risk_updated s req now) "High risk detected" now).1
  { st2 with store :=
      log_security_event st2.store s.userId (some s.id) "session_revoked_risk" req }

/-- Resulting state and session of the success branch of `authenticate_request`. -/
def auth_success_result (st1 : State) (s : SessionRec) (req : RequestData) (now : Nat) :
    State × SessionRec :=
  let s2 := update_context (risk_updated s req now) req
  ({ store := updateSession st1.store s2, cache := cache_session st1.cache s2 now }, s2)

/-- Resulting state of the reuse-detection branch of `refresh_access_token`. -/
def refresh_reuse_result (st1 : State) (s : SessionRec) (req : RequestData) (now : Nat) :
    State :=
  let st2 := (revoke_session st1 s "Refresh token reuse detected" now).1
  { st2 with store :=
      log_security_event st2.store s.userId (some s.id) "token_reuse_detected" req }

/-- Resulting state of the risk-revocation branch of `refresh_access_token`. -/
def refresh_suspicious_result (st1 : State) (s : SessionRec) (req : RequestData)
    (now : Nat) : State :=
  let st2 := (revoke_session st1 s "Suspicious activity" now).1
  { st2 with store :=
      log_security_event st2.store s.userId (some s.id) "session_revoked_suspicious" req }

/-- The successor token minted by a successful rotation. -/
def rotated_token (sid nid nth : String) (now : Nat) : RefreshTokenRec :=
  { id := nid, sessionId := sid, tokenHash := nth,
    expiresAt := now + REFRESH_TOKEN_LIFETIME, revokedAt := none, replacedBy := none }

/-- Resulting state and session of the rotation branch of `refresh_access_token`. -/
def refresh_success_result (st1 : State) (s : SessionRec) (tr : RefreshTokenRec)
    (req : RequestData) (nid nth : String) (now : Nat) : State × SessionRec :=
  let s2 := update_context (refresh_risk_session s req now) req
  let tr2 := { tr with revokedAt := some now, replacedBy := some nid }
  let tokens := rotated_token s.id nid nth now ::
    st1.store.tokens.map (fun t => if t.id = tr.id then tr2 else t)
  ({ store := updateSession { st1.store with tokens } s2,
     cache := cache_session st1.cache s2 now }, s2)

/-! ### Helper lemmas on list lookups and updates -/

theorem find?_filter_eq {α : Type} (l : List α) (p q : α → Bool)
    (h : ∀ x, p x = true → q x = true) :
    (l.filter q).find? p = l.find? p := by
  induction l with
  | nil => rfl
  | cons a t ih =>
    by_cases hp : p a = true
    · rw [List.filter_cons_of_pos (h a hp), List.find?_cons_of_pos _ hp,
        List.find?_cons_of_pos _ hp]
    · by_cases hq : q a = true
      · rw [List.filter_cons_of_pos hq, List.find?_cons_of_neg _ hp,
          List.find?_cons_of_neg _ hp, ih]
      · rw [List.filter_cons_of_neg hq, List.find?_cons_of_neg _ hp, ih]

/-- After replacing every row keyed `key x = k₀` by `r`, lookups at other
keys are unchanged. -/
theorem find?_map_replace_ne {α : Type} (l : List α) (key : α → String)
    (r : α) (k₀ k : String) (hkey : key r = k₀) (hne : k ≠ k₀) :
    (l.map (fun x => if key x = k₀ then r else x)).find? (fun x => key x = k) =
      l.find? (fun x => key x = k) := by
  induction l with
  | nil => rfl
  | cons a t ih =>
    rw [List.map_cons]
    by_cases ha : key a = k₀
    · rw [if_pos ha]
      have h1 : ¬ ((fun x => decide (key x = k)) r = true) := by
        simp only [decide_eq_true_eq, hkey]
        intro hcon
        exact hne hcon.symm
      have h2 : ¬ ((fun x => decide (key x = k)) a = true) := by
        simp only [decide_eq_true_eq]
        intro hcon
        rw [ha] at hcon
        exact hne hcon.symm
      rw [List.find?_cons_of_neg (p := fun x => decide (key x = k)) _ h1,
        List.find?_cons_of_neg (p := fun x => decide (key x = k)) _ h2, ih]
    · rw [if_neg ha]
      by_cases hk : key a = k
      · have h1 : (fun x => decide (key x = k)) a = true := by simpa using hk
        rw [List.find?_cons_of_pos (p := fun x => decide (key x = k)) _ h1,
          List.find?_cons_of_pos (p := fun x => decide (key x = k)) _ h1]
      · have h1 : ¬ ((fun x => decide (key x = k)) a = true) := by simpa using hk
        rw [List.find?_cons_of_neg (p := fun x => decide (key x = k)) _ h1,
          List.find?_cons_of_neg (p := fun x => decide (key x = k)) _ h1, ih]

/-- After replacing every row keyed `key x = k₀` by `r`, a lookup at `k₀`
returns `r` provided some row with that key was present. -/
theorem find?_map_replace_self {α : Type} (l : List α) (key : α → String)
    (r : α) (k₀ : String) (hkey : key r = k₀) (a₀ : α)
    (hfound : l.find? (fun x => key x = k₀) = some a₀) :
    (l.map (fun x => if key x = k₀ then r else x)).find? (fun x => key x = k₀) =
      some r := by
  induction l with
  | nil => simp at hfound
  | cons a t ih =>
    rw [List.map_cons]
    by_cases ha : key a = k₀
    · rw [if_pos ha]
      have h1 : (fun x => decide (key x = k₀)) r = true := by simpa using hkey
      rw [List.find?_cons_of_pos (p := fun x => decide (key x = k₀)) _ h1]
    · have h2 : ¬ ((fun x => decide (key x = k₀)) a = true) := by simpa using ha
      rw [List.find?_cons_of_neg (p := fun x => decide (key x = k₀)) _ h2] at hfound
      rw [if_neg ha,
        List.find?_cons_of_neg (p := fun x => decide (key x = k₀)) _ h2, ih hfound]

/-- Mapping a function that either fixes an element or moves it out of the
filtered set cannot increase the filtered length. -/
theorem length_filter_map_le {α : Type} (l : List α) (p : α → Bool) (f : α → α)
    (h : ∀ x, p (f x) = true → f x = x) :
    ((l.map f).filter p).length ≤ (l.filter p).length := by
  induction l with
  | nil => simp
  | cons a t ih =>
    rw [List.map_cons]
    by_cases hfa : p (f a) = true
    · have hfix := h a hfa
      have hpa : p a = true := by rw [← hfix]; exact hfa
      rw [List.filter_cons_of_pos hfa, List.filter_cons_of_pos hpa]
      simpa using ih
    · rw [List.filter_cons_of_neg hfa]
      by_cases hpa : p a = true
      · rw [List.filter_cons_of_pos hpa]
        exact Nat.le_succ_of_le ih
      · rw [List.filter_cons_of_neg hpa]
        exact ih

/-- If the mapped image of every element fails the filter, the filtered
image is empty. -/
theorem filter_map_eq_nil {α : Type} (l : List α) (p : α → Bool) (f : α → α)
    (h : ∀ x ∈ l, p (f x) = false) :
    (l.map f).filter p = [] := by
  induction l with
  | nil => rfl
  | cons a t ih =>
    have h1 : ¬ (p (f a) = true) := by simp [h a (List.mem_cons_self a t)]
    rw [List.map_cons, List.filter_cons_of_neg h1]
    exact ih (fun x hx => h x (List.mem_cons_of_mem a hx))

theorem findSession_id {st : Store} {sid : String} {s : SessionRec}
    (h : findSession st sid = some s) : s.id = sid := by
  have := List.find?_some h
  exact of_decide_eq_true this

theorem findTokenByHash_hash {st : Store} {h0 : String} {t : RefreshTokenRec}
    (h : findTokenByHash st h0 = some t) : t.tokenHash = h0 := by
  have := List.find?_some h
  exact of_decide_eq_true this

theorem findTokenByHash_mem {st : Store} {h0 : String} {t : RefreshTokenRec}
    (h : findTokenByHash st h0 = some t) : t ∈ st.tokens :=
  List.mem_of_find?_eq_some h

theorem findSession_mem {st : Store} {sid : String} {s : SessionRec}
    (h : findSession st sid = some s) : s ∈ st.sessions :=
  List.mem_of_find?_eq_some h

/-! ### Cache lemmas -/

theorem cacheGetAt_setEx_self (c : CacheMap) (k : String) (d : Nat) (v : SessionRec)
    (now : Nat) :
    cacheGetAt (cacheSetEx c k d v) k now = if now < d then some v else none := by
  unfold cacheGetAt cacheSetEx
  rw [List.find?_cons_of_pos _ (by simp)]

theorem cacheGetAt_setEx_ne (c : CacheMap) (k k1 : String) (d : Nat) (v : SessionRec)
    (now : Nat) (h : k1 ≠ k) :
    cacheGetAt (cacheSetEx c k d v) k1 now = cacheGetAt c k1 now := by
  unfold cacheGetAt cacheSetEx
  rw [List.find?_cons_of_neg _ (by simpa using fun hx => h hx.symm),
    find?_filter_eq _ _ _ (fun x hx => by
      simp only [decide_eq_true_eq] at hx
      simpa [hx] using h)]

theorem cacheGetAt_delete_self (c : CacheMap) (k : String) (now : Nat) :
    cacheGetAt (cacheDelete c k) k now = none := by
  unfold cacheGetAt cacheDelete
  have hnone : (c.filter (fun p => p.1 ≠ k)).find? (fun p => p.1 = k) = none := by
    rw [List.find?_eq_none]
    intro x hx
    have := List.of_mem_filter hx
    simp only [decide_eq_true_eq] at this ⊢
    simpa using this
  rw [hnone]

theorem cacheGetAt_delete_ne (c : CacheMap) (k k1 : String) (now : Nat) (h : k1 ≠ k) :
    cacheGetAt (cacheDelete c k) k1 now = cacheGetAt c k1 now := by
  unfold cacheGetAt cacheDelete
  rw [find?_filter_eq _ _ _ (fun x hx => by
    simp only [decide_eq_true_eq] at hx
    simpa [hx] using h)]

theorem cacheGetAt_cache_session (c : CacheMap) (s : SessionRec) (now now1 : Nat)
    (k : String) :
    cacheGetAt (cache_session c s now) k now1 =
      if k = s.id ∧ now < s.expiresAt then
        (if now1 < s.expiresAt then some s else none)
      else cacheGetAt c k now1 := by
  unfold cache_session
  by_cases httl : now < s.expiresAt
  · rw [if_pos httl]
    by_cases hk : k = s.id
    · rw [hk, cacheGetAt_setEx_self]
      simp [httl]
    · rw [cacheGetAt_setEx_ne _ _ _ _ _ _ hk, if_neg (fun hc => hk hc.1)]
  · rw [if_neg httl, if_neg (fun hc => httl hc.2)]

/-! ### Store-update lemmas -/

theorem findSession_update_ne (st : Store) (s1 : SessionRec) (k : String)
    (h : k ≠ s1.id) :
    findSession (updateSession st s1) k = findSession st k :=
  find?_map_replace_ne st.sessions (fun x => x.id) s1 s1.id k rfl h

theorem findSession_update_self (st : Store) (s1 a₀ : SessionRec)
    (hfound : findSession st s1.id = some a₀) :
    findSession (updateSession st s1) s1.id = some s1 :=
  find?_map_replace_self st.sessions (fun x => x.id) s1 s1.id rfl a₀ hfound

theorem updateSession_tokens (st : Store) (s1 : SessionRec) :
    (updateSession st s1).tokens = st.tokens := rfl

theorem updateSession_events (st : Store) (s1 : SessionRec) :
    (updateSession st s1).events = st.events := rfl

/-- The session ids of the store are untouched by `updateSession`. -/
theorem updateSession_ids (st : Store) (s1 : SessionRec) :
    (updateSession st s1).sessions.map (fun s => s.id) =
      st.sessions.map (fun s => s.id) := by
  unfold updateSession
  rw [List.map_map]
  apply List.map_congr_left
  intro x _
  by_cases hx : x.id = s1.id
  · simp [Function.comp, hx]
  · simp [Function.comp, hx]

/-! ### `load_session` characterisation -/

theorem load_session_none {st : State} {sid : String} {now : Nat} {st1 : State}
    (h : load_session st sid now = (none, st1)) :
    st1 = st ∧ cacheGetAt st.cache sid now = none ∧ findSession st.store sid = none := by
  unfold load_session at h
  cases hc : cacheGetAt st.cache sid now with
  | some cached => rw [hc] at h; dsimp only at h; simp at h
  | none =>
    rw [hc] at h
    dsimp only at h
    cases hf : findSession st.store sid with
    | some s0 =>
      rw [hf] at h
      dsimp only at h
      split at h
      · simp at h
      · simp at h
    | none =>
      rw [hf] at h
      dsimp only at h
      simp only [Prod.mk.injEq] at h
      exact ⟨h.2.symm, rfl, rfl⟩

theorem load_session_some {st : State} {sid : String} {now : Nat}
    {s : SessionRec} {st1 : State}
    (h : load_session st sid now = (some s, st1)) :
    st1.store = st.store ∧
    (cacheGetAt st.cache sid now = some s ∧ st1 = st ∨
     findSession st.store sid = some s ∧
       (st1.cache = cache_session st.cache s now ∨ st1 = st)) := by
  unfold load_session at h
  split at h
  · rename_i cached hc
    simp only [Prod.mk.injEq, Option.some.injEq] at h
    obtain ⟨hs, hst⟩ := h
    cases hs
    exact ⟨by rw [← hst], Or.inl ⟨hc, hst.symm⟩⟩
  · split at h
    · rename_i hc s0 hf
      split at h
      · simp only [Prod.mk.injEq, Option.some.injEq] at h
        obtain ⟨hs, hst⟩ := h
        cases hs
        exact ⟨by rw [← hst], Or.inr ⟨hf, Or.inl (by rw [← hst])⟩⟩
      · simp only [Prod.mk.injEq, Option.some.injEq] at h
        obtain ⟨hs, hst⟩ := h
        cases hs
        exact ⟨by rw [← hst], Or.inr ⟨hf, Or.inr hst.symm⟩⟩
    · simp at h

/-- Under cache coherence, a loaded session is exactly the committed row. -/
theorem load_session_spec {st : State} {sid : String} {now clock : Nat}
    (hcoh : CacheCoherent st clock) (hnow : clock ≤ now)
    {s : SessionRec} {st1 : State}
    (h : load_session st sid now = (some s, st1)) :
    findSession st.store sid = some s ∧ st1.store = st.store ∧ s.id = sid := by
  obtain ⟨hstore, hcases⟩ := load_session_some h
  rcases hcases with ⟨hc, _⟩ | ⟨hf, _⟩
  · have hfind := hcoh now hnow sid s hc
    exact ⟨hfind, hstore, findSession_id hfind⟩
  · exact ⟨hf, hstore, findSession_id hf⟩

/-! ### `revoke_session` projections -/

theorem revoke_sessions_eq (st : State) (s : SessionRec) (r : String) (now : Nat) :
    (revoke_session st s r now).1.store.sessions =
      (updateSession st.store { s with revokedAt := some now }).sessions := rfl

theorem revoke_tokens_eq (st : State) (s : SessionRec) (r : String) (now : Nat) :
    (revoke_session st s r now).1.store.tokens =
      st.store.tokens.map (fun t =>
        if t.sessionId = s.id ∧ t.revokedAt = none
        then { t with revokedAt := some now } else t) := rfl

theorem revoke_events_eq (st : State) (s : SessionRec) (r : String) (now : Nat) :
    (revoke_session st s r now).1.store.events = st.store.events := rfl

theorem revoke_cache_eq (st : State) (s : SessionRec) (r : String) (now : Nat) :
    (revoke_session st s r now).1.cache = cacheDelete st.cache s.id := rfl

theorem revoke_findSession_self (st : State) (s : SessionRec) (r : String) (now : Nat)
    (a₀ : SessionRec) (hfound : findSession st.store s.id = some a₀) :
    findSession (revoke_session st s r now).1.store s.id =
      some { s with revokedAt := some now } :=
  findSession_update_self st.store { s with revokedAt := some now } a₀ hfound

theorem revoke_findSession_ne (st : State) (s : SessionRec) (r : String) (now : Nat)
    (k : String) (h : k ≠ s.id) :
    findSession (revoke_session st s r now).1.store k = findSession st.store k :=
  findSession_update_ne st.store { s with revokedAt := some now } k h

/-- After `revoke_session`, the session owns no live token. -/
theorem revoke_liveTokens_self (st : State) (s : SessionRec) (r : String) (now : Nat) :
    liveTokens (revoke_session st s r now).1.store s.id = [] := by
  unfold liveTokens
  rw [revoke_tokens_eq]
  apply filter_map_eq_nil
  intro t _
  by_cases hc : t.sessionId = s.id ∧ t.revokedAt = none
  · rw [if_pos hc]
    simp
  · rw [if_neg hc]
    simpa using hc

/-- `revoke_session` never grows any live-token set. -/
theorem revoke_liveTokens_le (st : State) (s : SessionRec) (r : String) (now : Nat)
    (sid : String) :
    (liveTokens (revoke_session st s r now).1.store sid).length ≤
      (liveTokens st.store sid).length := by
  unfold liveTokens
  rw [revoke_tokens_eq]
  apply length_filter_map_le
  intro t ht
  by_cases hc : t.sessionId = s.id ∧ t.revokedAt = none
  · rw [if_pos hc] at ht
    simp at ht
  · rw [if_neg hc]

/-! ### More small lemmas -/

theorem eq_of_length_le_one {α : Type} {l : List α} (h : l.length ≤ 1) {a b : α}
    (ha : a ∈ l) (hb : b ∈ l) : a = b := by
  cases l with
  | nil => simp at ha
  | cons x t =>
    cases t with
    | nil =>
      rw [List.mem_singleton] at ha hb
      rw [ha, hb]
    | cons y u => simp at h

theorem map_ids_eq {α : Type} (l : List α) (key : α → String) (f : α → α)
    (h : ∀ x, key (f x) = key x) : (l.map f).map key = l.map key := by
  rw [List.map_map]
  apply List.map_congr_left
  intro x _
  exact h x

theorem cacheGetAt_mem {c : CacheMap} {k : String} {now : Nat} {v : SessionRec}
    (h : cacheGetAt c k now = some v) : ∃ d, (k, d, v) ∈ c ∧ now < d := by
  unfold cacheGetAt at h
  cases hf : c.find? (fun p => p.1 = k) with
  | none => rw [hf] at h; simp at h
  | some e =>
    rw [hf] at h
    obtain ⟨k1, d, v1⟩ := e
    dsimp only at h
    by_cases hd : now < d
    · rw [if_pos hd] at h
      have hp := List.find?_some hf
      simp only [decide_eq_true_eq] at hp
      have hkey : k1 = k := hp
      have hmem := List.mem_of_find?_eq_some hf
      cases h
      rw [hkey] at hmem
      exact ⟨d, hmem, hd⟩
    · rw [if_neg hd] at h
      simp at h

theorem mem_cacheSetEx {c : CacheMap} {k : String} {d : Nat} {v : SessionRec}
    {e : String × Nat × SessionRec} (h : e ∈ cacheSetEx c k d v) :
    e = (k, d, v) ∨ e ∈ c := by
  unfold cacheSetEx at h
  rcases List.mem_cons.mp h with h1 | h1
  · exact Or.inl h1
  · exact Or.inr (List.mem_of_mem_filter h1)

theorem findSession_none_iff {st : Store} {sid : String} :
    findSession st sid = none ↔ ∀ s ∈ st.sessions, s.id ≠ sid := by
  unfold findSession
  rw [List.find?_eq_none]
  constructor
  · intro h s hs
    have := h s hs
    simpa using this
  · intro h s hs
    simpa using h s hs

theorem mem_liveTokens_iff {st : Store} {sid : String} {t : RefreshTokenRec} :
    t ∈ liveTokens st sid ↔ t ∈ st.tokens ∧ t.sessionId = sid ∧ t.revokedAt = none := by
  unfold liveTokens
  rw [List.mem_filter]
  constructor
  · intro ⟨h1, h2⟩
    exact ⟨h1, of_decide_eq_true h2⟩
  · intro ⟨h1, h2⟩
    exact ⟨h1, decide_eq_true h2⟩

/-! ### Path characterisations of `authenticate_request` -/

theorem auth_none_path {st : State} {sid : String} (req : RequestData) {now : Nat}
    {st1 : State} (hload : load_session st sid now = (none, st1)) :
    authenticate_request st sid req now = (st1, .error .sessionInvalid) := by
  unfold authenticate_request
  rw [hload]

theorem auth_revoked_path {st : State} {sid : String} (req : RequestData) {now : Nat}
    {s : SessionRec} {st1 : State}
    (hload : load_session st sid now = (some s, st1)) (hrev : s.revokedAt ≠ none) :
    authenticate_request st sid req now = (st1, .error .sessionInvalid) := by
  unfold authenticate_request
  rw [hload]
  dsimp only
  rw [if_pos hrev]

theorem auth_expired_path {st : State} {sid : String} (req : RequestData) {now : Nat}
    {s : SessionRec} {st1 : State}
    (hload : load_session st sid now = (some s, st1)) (hrev : s.revokedAt = none)
    (hexp : s.expiresAt < now) :
    authenticate_request st sid req now = (st1, .error .sessionExpired) := by
  unfold authenticate_request
  rw [hload]
  dsimp only
  rw [if_neg (fun hc => hc hrev), if_pos hexp]

theorem auth_reauth_path {st : State} {sid : String} (req : RequestData) {now : Nat}
    {s : SessionRec} {st1 : State}
    (hload : load_session st sid now = (some s, st1)) (hrev : s.revokedAt = none)
    (hexp : ¬ s.expiresAt < now)
    (hrisk : REAUTH_RISK ≤ s.riskScore + calculate_risk s req) :
    authenticate_request st sid req now =
      (auth_reauth_result st1 s req now, .error .reauthRequired) := by
  unfold authenticate_request
  rw [hload]
  dsimp only
  rw [if_neg (fun hc => hc hrev), if_neg hexp, if_pos hrisk]
  rfl

theorem auth_success_path {st : State} {sid : String} (req : RequestData) {now : Nat}
    {s : SessionRec} {st1 : State}
    (hload : load_session st sid now = (some s, st1)) (hrev : s.revokedAt = none)
    (hexp : ¬ s.expiresAt < now)
    (hrisk : ¬ REAUTH_RISK ≤ s.riskScore + calculate_risk s req) :
    authenticate_request st sid req now =
      ((auth_success_result st1 s req now).1, .ok (auth_success_result st1 s req now).2) := by
  unfold authenticate_request
  rw [hload]
  dsimp only
  rw [if_neg (fun hc => hc hrev), if_neg hexp, if_neg hrisk]
  rfl

/-! ### Path characterisations of `refresh_access_token` -/

theorem refresh_notoken_path {st : State} {th : String} (req : RequestData)
    (nid nth : String) {now : Nat}
    (hfind : findTokenByHash st.store th = none) :
    refresh_access_token st th req nid nth now = (st, .error .invalidToken) := by
  unfold refresh_access_token
  rw [hfind]

theorem refresh_sessionnone_path {st : State} {th : String} (req : RequestData)
    (nid nth : String) {now : Nat} {tr : RefreshTokenRec} {st1 : State}
    (hfind : findTokenByHash st.store th = some tr)
    (hload : load_session st tr.sessionId now = (none, st1)) :
    refresh_access_token st th req nid nth now = (st1, .error .sessionInvalid) := by
  unfold refresh_access_token
  rw [hfind]
  dsimp only
  rw [hload]

theorem refresh_sessionrevoked_path {st : State} {th : String} (req : RequestData)
    (nid nth : String) {now : Nat} {tr : RefreshTokenRec} {s : SessionRec} {st1 : State}
    (hfind : findTokenByHash st.store th = some tr)
    (hload : load_session st tr.sessionId now = (some s, st1))
    (hrev : s.revokedAt ≠ none) :
    refresh_access_token st th req nid nth now = (st1, .error .sessionInvalid) := by
  unfold refresh_access_token
  rw [hfind]
  dsimp only
  rw [hload]
  dsimp only
  rw [if_pos hrev]

theorem refresh_reuse_path {st : State} {th : String} (req : RequestData)
    (nid nth : String) {now : Nat} {tr : RefreshTokenRec} {s : SessionRec} {st1 : State}
    (hfind : findTokenByHash st.store th = some tr)
    (hload : load_session st tr.sessionId now = (some s, st1))
    (hrev : s.revokedAt = none) (htok : tr.revokedAt ≠ none) :
    refresh_access_token st th req nid nth now =
      (refresh_reuse_result st1 s req now, .error .tokenReuseDetected) := by
  unfold refresh_access_token
  rw [hfind]
  dsimp only
  rw [hload]
  dsimp only
  rw [if_neg (fun hc => hc hrev), if_pos htok]
  rfl

theorem refresh_expired_path {st : State} {th : String} (req : RequestData)
    (nid nth : String) {now : Nat} {tr : RefreshTokenRec} {s : SessionRec} {st1 : State}
    (hfind : findTokenByHash st.store th = some tr)
    (hload : load_session st tr.sessionId now = (some s, st1))
    (hrev : s.revokedAt = none) (htok : tr.revokedAt = none)
    (hexp : tr.expiresAt < now) :
    refresh_access_token st th req nid nth now = (st1, .error .tokenExpired) := by
  unfold refresh_access_token
  rw [hfind]
  dsimp only
  rw [hload]
  dsimp only
  rw [if_neg (fun hc => hc hrev), if_neg (fun hc => hc htok), if_pos hexp]

theorem refresh_suspicious_path {st : State} {th : String} (req : RequestData)
    (nid nth : String) {now : Nat} {tr : RefreshTokenRec} {s : SessionRec} {st1 : State}
    (hfind : findTokenByHash st.store th = some tr)
    (hload : load_session st tr.sessionId now = (some s, st1))
    (hrev : s.revokedAt = none) (htok : tr.revokedAt = none)
    (hexp : ¬ tr.expiresAt < now)
    (hrisk : REAUTH_RISK ≤ calculate_risk s req) :
    refresh_access_token st th req nid nth now =
      (refresh_suspicious_result st1 s req now, .error .suspiciousActivity) := by
  unfold refresh_access_token
  rw [hfind]
  dsimp only
  rw [hload]
  dsimp only
  rw [if_neg (fun hc => hc hrev), if_neg (fun hc => hc htok), if_neg hexp, if_pos hrisk]
  rfl

theorem refresh_rotate_path {st : State} {th : String} (req : RequestData)
    (nid nth : String) {now : Nat} {tr : RefreshTokenRec} {s : SessionRec} {st1 : State}
    (hfind : findTokenByHash st.store th = some tr)
    (hload : load_session st tr.sessionId now = (some s, st1))
    (hrev : s.revokedAt = none) (htok : tr.revokedAt = none)
    (hexp : ¬ tr.expiresAt < now)
    (hrisk : ¬ REAUTH_RISK ≤ calculate_risk s req) :
    refresh_access_token st th req nid nth now =
      ((refresh_success_result st1 s tr req nid nth now).1,
       .ok ((refresh_success_result st1 s tr req nid nth now).2, nth)) := by
  unfold refresh_access_token
  rw [hfind]
  dsimp only
  rw [hload]
  dsimp only
  rw [if_neg (fun hc => hc hrev), if_neg (fun hc => hc htok), if_neg hexp, if_neg hrisk]
  rfl

/-! ### `update_context` and `create_session` structure lemmas -/

theorem update_context_id (s : SessionRec) (req : RequestData) :
    (update_context s req).id = s.id := by
  unfold update_context
  cases req.ip <;> rfl

theorem update_context_expiresAt (s : SessionRec) (req : RequestData) :
    (update_context s req).expiresAt = s.expiresAt := by
  unfold update_context
  cases req.ip <;> rfl

theorem update_context_riskScore (s : SessionRec) (req : RequestData) :
    (update_context s req).riskScore = s.riskScore := by
  unfold update_context
  cases req.ip <;> rfl

theorem update_context_fingerprint (s : SessionRec) (req : RequestData) :
    (update_context s req).deviceId = s.deviceId ∧
    (update_context s req).clientId = s.clientId ∧
    (update_context s req).userAgentHash = s.userAgentHash ∧
    (update_context s req).osFamily = s.osFamily ∧
    (update_context s req).browserFamily = s.browserFamily ∧
    (update_context s req).lastSeenAt = s.lastSeenAt ∧
    (update_context s req).revokedAt = s.revokedAt ∧
    (update_context s req).userId = s.userId := by
  unfold update_context
  cases req.ip <;> exact ⟨rfl, rfl, rfl, rfl, rfl, rfl, rfl, rfl⟩

theorem update_context_ip_some (s : SessionRec) (req : RequestData) (ip : String)
    (h : req.ip = some ip) :
    update_context s req =
      { s with lastIp := some ip, lastAsn := none, lastCountry := none } := by
  unfold update_context
  rw [h]
  rfl

theorem update_context_ip_none (s : SessionRec) (req : RequestData) (h : req.ip = none) :
    update_context s req = s := by
  unfold update_context
  rw [h]

theorem create_sessions_eq (st : State) (u : Nat) (req : RequestData)
    (sid tid th : String) (now : Nat) :
    (create_session st u req sid tid th now).1.store.sessions =
      created_session u req sid now :: st.store.sessions := rfl

theorem create_tokens_eq (st : State) (u : Nat) (req : RequestData)
    (sid tid th : String) (now : Nat) :
    (create_session st u req sid tid th now).1.store.tokens =
      created_token sid tid th now :: st.store.tokens := rfl

theorem create_events_eq (st : State) (u : Nat) (req : RequestData)
    (sid tid th : String) (now : Nat) :
    (create_session st u req sid tid th now).1.store.events =
      st.store.events ++
        [{ userId := u, sessionId := some sid, eventType := "session_created",
           ip := req.ip, userAgent := req.userAgent }] := rfl

theorem create_cache_eq (st : State) (u : Nat) (req : RequestData)
    (sid tid th : String) (now : Nat) :
    (create_session st u req sid tid th now).1.cache =
      cache_session st.cache (created_session u req sid now) now := rfl

theorem created_session_expires (u : Nat) (req : RequestData) (sid : String) (now : Nat) :
    now < (created_session u req sid now).expiresAt :=
  Nat.lt_add_of_pos_right (by norm_num [SESSION_ABSOLUTE_LIMIT])

/-! ### Invariant preservation -/

theorem cacheCoherent_mono {st : State} {c1 c2 : Nat} (h : CacheCoherent st c1)
    (hle : c1 ≤ c2) : CacheCoherent st c2 :=
  fun now hnow k v hg => h now (le_trans hle hnow) k v hg

theorem sysInv_mono {st : State} {c1 c2 : Nat} (h : SysInv st c1) (hle : c1 ≤ c2) :
    SysInv st c2 :=
  ⟨cacheCoherent_mono h.1 hle, h.2.1, h.2.2.1, h.2.2.2⟩

theorem log_preserves_inv {st : State} {clock : Nat} (u : Nat) (sid : Option String)
    (ty : String) (req : RequestData) (hinv : SysInv st clock) :
    SysInv { st with store := log_security_event st.store u sid ty req } clock := hinv

theorem revoke_preserves_inv {st : State} {clock : Nat} (s : SessionRec) (r : String)
    (now : Nat) (hinv : SysInv st clock) :
    SysInv (revoke_session st s r now).1 clock := by
  obtain ⟨hcoh, hdl, htok, hkeys⟩ := hinv
  refine ⟨?_, ?_, ?_, ?_, ?_⟩
  · intro now1 hnow1 k v hget
    rw [revoke_cache_eq] at hget
    by_cases hk : k = s.id
    · rw [hk, cacheGetAt_delete_self] at hget
      exact absurd hget (by simp)
    · rw [cacheGetAt_delete_ne _ _ _ _ hk] at hget
      rw [revoke_findSession_ne st s r now k hk]
      exact hcoh now1 hnow1 k v hget
  · intro e he
    rw [revoke_cache_eq] at he
    exact hdl e (List.mem_of_mem_filter he)
  · intro sid
    exact le_trans (revoke_liveTokens_le st s r now sid) (htok sid)
  · have h1 : (revoke_session st s r now).1.store.sessions.map (fun x => x.id) =
        st.store.sessions.map (fun x => x.id) := by
      rw [revoke_sessions_eq]
      exact updateSession_ids st.store _
    rw [h1]
    exact hkeys.1
  · have h2 : (revoke_session st s r now).1.store.tokens.map (fun x => x.id) =
        st.store.tokens.map (fun x => x.id) := by
      rw [revoke_tokens_eq]
      apply map_ids_eq
      intro x
      by_cases hc : x.sessionId = s.id ∧ x.revokedAt = none
      · rw [if_pos hc]
      · rw [if_neg hc]
    rw [h2]
    exact hkeys.2

theorem load_preserves_inv {st : State} {clock : Nat} {sid : String} {now : Nat}
    {res : Option SessionRec} {st1 : State}
    (hinv : SysInv st clock) (h : load_session st sid now = (res, st1)) :
    SysInv st1 clock := by
  obtain ⟨hcoh, hdl, htok, hkeys⟩ := hinv
  cases res with
  | none =>
    obtain ⟨heq, -, -⟩ := load_session_none h
    rw [heq]
    exact ⟨hcoh, hdl, htok, hkeys⟩
  | some s =>
    obtain ⟨hstore, hcases⟩ := load_session_some h
    rcases hcases with ⟨-, heq⟩ | ⟨hf, hcache | heq⟩
    · rw [heq]
      exact ⟨hcoh, hdl, htok, hkeys⟩
    · refine ⟨?_, ?_, ?_, ?_, ?_⟩
      · intro now1 hnow1 k v hget
        rw [hcache, cacheGetAt_cache_session] at hget
        rw [hstore]
        by_cases hcnd : k = s.id ∧ now < s.expiresAt
        · rw [if_pos hcnd] at hget
          by_cases hvis : now1 < s.expiresAt
          · rw [if_pos hvis] at hget
            cases hget
            rw [hcnd.1, findSession_id hf]
            exact hf
          · rw [if_neg hvis] at hget
            exact absurd hget (by simp)
        · rw [if_neg hcnd] at hget
          exact hcoh now1 hnow1 k v hget
      · intro e he
        rw [hcache] at he
        unfold cache_session at he
        by_cases httl : now < s.expiresAt
        · rw [if_pos httl] at he
          rcases mem_cacheSetEx he with he1 | he1
          · rw [he1]
          · exact hdl e he1
        · rw [if_neg httl] at he
          exact hdl e he
      · intro sid0
        rw [hstore]
        exact htok sid0
      · rw [hstore]
        exact hkeys.1
      · rw [hstore]
        exact hkeys.2
    · rw [heq]
      exact ⟨hcoh, hdl, htok, hkeys⟩

/-- Coherence of the final commit-and-recache step shared by the success
branches of `authenticate_request` and `refresh_access_token`. -/
theorem commit_coh {st1 : State} {clock now : Nat} {s2 : SessionRec} {storeX : Store}
    (hcoh1 : CacheCoherent st1 clock) (hdl1 : CacheDeadlines st1) (hclock : clock ≤ now)
    (hself : findSession storeX s2.id = some s2)
    (hother : ∀ k, k ≠ s2.id → findSession storeX k = findSession st1.store k)
    (hedge : ¬ now < s2.expiresAt →
      ∀ v, findSession st1.store s2.id = some v → v.expiresAt ≤ now) :
    CacheCoherent { store := storeX, cache := cache_session st1.cache s2 now } now := by
  intro now1 hnow1 k v hget
  have hget2 : cacheGetAt (cache_session st1.cache s2 now) k now1 = some v := hget
  rw [cacheGetAt_cache_session] at hget2
  show findSession storeX k = some v
  by_cases hcnd : k = s2.id ∧ now < s2.expiresAt
  · rw [if_pos hcnd] at hget2
    by_cases hvis : now1 < s2.expiresAt
    · rw [if_pos hvis] at hget2
      cases hget2
      rw [hcnd.1]
      exact hself
    · rw [if_neg hvis] at hget2
      exact absurd hget2 (by simp)
  · rw [if_neg hcnd] at hget2
    have hold := hcoh1 now1 (le_trans hclock hnow1) k v hget2
    by_cases hk : k = s2.id
    · have hnottl : ¬ now < s2.expiresAt := fun httl => hcnd ⟨hk, httl⟩
      obtain ⟨d, hmem, hvis⟩ := cacheGetAt_mem hget2
      have hd := hdl1 (k, d, v) hmem
      rw [hk] at hold
      have hle := hedge hnottl v hold
      dsimp only at hd
      omega
    · rw [hother k hk]
      exact hold

/-- Deadline discipline of the commit-and-recache step. -/
theorem deadlines_cache_session {c : CacheMap} (s2 : SessionRec) (now : Nat)
    (h : ∀ e ∈ c, e.2.1 = e.2.2.expiresAt) :
    ∀ e ∈ cache_session c s2 now, e.2.1 = e.2.2.expiresAt := by
  intro e he
  unfold cache_session at he
  by_cases httl : now < s2.expiresAt
  · rw [if_pos httl] at he
    rcases mem_cacheSetEx he with he1 | he1
    · rw [he1]
    · exact h e he1
  · rw [if_neg httl] at he
    exact h e he

theorem create_preserves_inv {st : State} {clock : Nat} (u : Nat) (req : RequestData)
    (sid tid th : String) {now : Nat} (hinv : SysInv st clock) (hclock : clock ≤ now)
    (hfresh : freshOk st (Op.create u req sid tid th now) = true) :
    SysInv (create_session st u req sid tid th now).1 now := by
  obtain ⟨hcoh, hdl, htok, hkeys⟩ := hinv
  simp only [freshOk, Bool.and_eq_true, List.all_eq_true, bne_iff_ne,
    Option.isNone_iff_eq_none] at hfresh
  obtain ⟨⟨⟨hfsid, hftoksid⟩, hftid⟩, hfth⟩ := hfresh
  have httl := created_session_expires u req sid now
  refine ⟨?_, ?_, ?_, ?_, ?_⟩
  · intro now1 hnow1 k v hget
    have hget2 : cacheGetAt (cache_session st.cache (created_session u req sid now) now)
        k now1 = some v := hget
    rw [cacheGetAt_cache_session] at hget2
    show findSession (create_session st u req sid tid th now).1.store k = some v
    unfold findSession
    rw [create_sessions_eq]
    by_cases hcnd : k = (created_session u req sid now).id ∧
        now < (created_session u req sid now).expiresAt
    · rw [if_pos hcnd] at hget2
      by_cases hvis : now1 < (created_session u req sid now).expiresAt
      · rw [if_pos hvis] at hget2
        cases hget2
        rw [hcnd.1]
        exact List.find?_cons_of_pos _ (by simp)
      · rw [if_neg hvis] at hget2
        exact absurd hget2 (by simp)
    · rw [if_neg hcnd] at hget2
      have hk : k ≠ (created_session u req sid now).id := fun he => hcnd ⟨he, httl⟩
      have hold := hcoh now1 (le_trans hclock hnow1) k v hget2
      rw [List.find?_cons_of_neg _ (by simpa using fun he => hk he.symm)]
      exact hold
  · intro e he
    have he2 : e ∈ cache_session st.cache (created_session u req sid now) now := he
    exact deadlines_cache_session _ _ hdl e he2
  · intro sid0
    show (liveTokens (create_session st u req sid tid th now).1.store sid0).length ≤ 1
    unfold liveTokens
    rw [create_tokens_eq]
    by_cases hsid : sid0 = sid
    · subst hsid
      rw [List.filter_cons_of_pos (by simp [created_token])]
      have hnil : st.store.tokens.filter
          (fun t => t.sessionId = sid0 ∧ t.revokedAt = none) = [] := by
        rw [List.filter_eq_nil_iff]
        intro t ht
        simp only [decide_eq_true_eq, not_and]
        intro hts
        exact absurd hts (hftoksid t ht)
      rw [hnil]
      simp
    · rw [List.filter_cons_of_neg
        (by simp [created_token]; intro hc; exact absurd hc.symm hsid)]
      exact htok sid0
  · show ((create_session st u req sid tid th now).1.store.sessions.map
      (fun x => x.id)).Nodup
    rw [create_sessions_eq, List.map_cons, List.nodup_cons]
    refine ⟨?_, hkeys.1⟩
    intro hmem
    rw [List.mem_map] at hmem
    obtain ⟨x, hx, hxid⟩ := hmem
    exact (findSession_none_iff.mp hfsid) x hx hxid
  · show ((create_session st u req sid tid th now).1.store.tokens.map
      (fun x => x.id)).Nodup
    rw [create_tokens_eq, List.map_cons, List.nodup_cons]
    refine ⟨?_, hkeys.2⟩
    intro hmem
    rw [List.mem_map] at hmem
    obtain ⟨x, hx, hxid⟩ := hmem
    exact (hftid x hx) hxid

theorem auth_preserves_inv {st : State} {clock : Nat} (sid : String) (req : RequestData)
    {now : Nat} (hinv : SysInv st clock) (hclock : clock ≤ now) :
    SysInv (authenticate_request st sid req now).1 now := by
  rcases hload : load_session st sid now with ⟨sOpt, st1⟩
  have hinv1 : SysInv st1 clock := load_preserves_inv hinv hload
  cases sOpt with
  | none =>
    rw [auth_none_path req hload]
    exact sysInv_mono hinv1 hclock
  | some s =>
    by_cases hrev : s.revokedAt = none
    · by_cases hexp : s.expiresAt < now
      · rw [auth_expired_path req hload hrev hexp]
        exact sysInv_mono hinv1 hclock
      · by_cases hrisk : REAUTH_RISK ≤ s.riskScore + calculate_risk s req
        · rw [auth_reauth_path req hload hrev hexp hrisk]
          unfold auth_reauth_result
          exact sysInv_mono
            (log_preserves_inv _ _ _ _ (revoke_preserves_inv _ _ _ hinv1)) hclock
        · rw [auth_success_path req hload hrev hexp hrisk]
          obtain ⟨hfind, hstore, hid⟩ := load_session_spec hinv.1 hclock hload
          obtain ⟨hcoh1, hdl1, htok1, hkeys1⟩ := hinv1
          have hs2id : (update_context (risk_updated s req now) req).id = s.id :=
            update_context_id _ _
          have hs2exp : (update_context (risk_updated s req now) req).expiresAt =
              s.expiresAt := update_context_expiresAt _ _
          have hpres : findSession st1.store
              (update_context (risk_updated s req now) req).id = some s := by
            rw [hs2id, hstore, hid]
            exact hfind
          refine ⟨?_, ?_, ?_, ?_, ?_⟩
          · apply commit_coh hcoh1 hdl1 hclock
            · exact findSession_update_self st1.store _ s hpres
            · intro k hk
              exact findSession_update_ne st1.store _ k hk
            · intro hnottl v hv
              rw [hpres] at hv
              cases hv
              rw [hs2exp] at hnottl
              exact Nat.not_lt.mp hnottl
          · intro e he
            have he2 : e ∈ cache_session st1.cache
                (update_context (risk_updated s req now) req) now := he
            exact deadlines_cache_session _ _ hdl1 e he2
          · intro sid0
            exact htok1 sid0
          · show ((updateSession st1.store
              (update_context (risk_updated s req now) req)).sessions.map
                (fun x => x.id)).Nodup
            rw [updateSession_ids]
            exact hkeys1.1
          · exact hkeys1.2
    · rw [auth_revoked_path req hload hrev]
      exact sysInv_mono hinv1 hclock

theorem refresh_preserves_inv {st : State} {clock : Nat} (th : String) (req : RequestData)
    (nid nth : String) {now : Nat} (hinv : SysInv st clock) (hclock : clock ≤ now)
    (hfresh : freshOk st (Op.refresh th req nid nth now) = true) :
    SysInv (refresh_access_token st th req nid nth now).1 now := by
  simp only [freshOk, Bool.and_eq_true, List.all_eq_true, bne_iff_ne,
    Option.isNone_iff_eq_none] at hfresh
  obtain ⟨hfnth, hfnid⟩ := hfresh
  cases hfind : findTokenByHash st.store th with
  | none =>
    rw [refresh_notoken_path req nid nth hfind]
    exact sysInv_mono hinv hclock
  | some tr =>
    rcases hload : load_session st tr.sessionId now with ⟨sOpt, st1⟩
    have hinv1 : SysInv st1 clock := load_preserves_inv hinv hload
    cases sOpt with
    | none =>
      rw [refresh_sessionnone_path req nid nth hfind hload]
      exact sysInv_mono hinv1 hclock
    | some s =>
      by_cases hrev : s.revokedAt = none
      · by_cases htokrev : tr.revokedAt = none
        · by_cases hexp : tr.expiresAt < now
          · rw [refresh_expired_path req nid nth hfind hload hrev htokrev hexp]
            exact sysInv_mono hinv1 hclock
          · by_cases hrisk : REAUTH_RISK ≤ calculate_risk s req
            · rw [refresh_suspicious_path req nid nth hfind hload hrev htokrev hexp hrisk]
              unfold refresh_suspicious_result
              exact sysInv_mono
                (log_preserves_inv _ _ _ _ (revoke_preserves_inv _ _ _ hinv1)) hclock
            · rw [refresh_rotate_path req nid nth hfind hload hrev htokrev hexp hrisk]
              obtain ⟨hfindS, hstore, hid⟩ := load_session_spec hinv.1 hclock hload
              obtain ⟨hcoh1, hdl1, htok1, hkeys1⟩ := hinv1
              have htrmem : tr ∈ st1.store.tokens := by
                rw [hstore]
                exact findTokenByHash_mem hfind
              have hs2id :
                  (update_context (refresh_risk_session s req now) req).id = s.id :=
                update_context_id _ _
              have hs2exp :
                  (update_context (refresh_risk_session s req now) req).expiresAt =
                    s.expiresAt := update_context_expiresAt _ _
              have hpres : findSession st1.store
                  (update_context (refresh_risk_session s req now) req).id = some s := by
                rw [hs2id, hstore, hid]
                exact hfindS
              refine ⟨?_, ?_, ?_, ?_, ?_⟩
              · apply commit_coh hcoh1 hdl1 hclock
                · exact findSession_update_self _ _ s hpres
                · intro k hk
                  exact findSession_update_ne _ _ k hk
                · intro hnottl v hv
                  rw [hpres] at hv
                  cases hv
                  rw [hs2exp] at hnottl
                  exact Nat.not_lt.mp hnottl
              · intro e he
                have he2 : e ∈ cache_session st1.cache
                    (update_context (refresh_risk_session s req now) req) now := he
                exact deadlines_cache_session _ _ hdl1 e he2
              · intro sid0
                show ((rotated_token s.id nid nth now ::
                    st1.store.tokens.map (fun t => if t.id = tr.id then
                      { tr with revokedAt := some now, replacedBy := some nid }
                        else t)).filter
                    (fun t => t.sessionId = sid0 ∧ t.revokedAt = none)).length ≤ 1
                by_cases hsid : sid0 = s.id
                · subst hsid
                  rw [List.filter_cons_of_pos (by simp [rotated_token])]
                  have hnil : (st1.store.tokens.map (fun t => if t.id = tr.id then
                      { tr with revokedAt := some now, replacedBy := some nid }
                        else t)).filter
                      (fun t => t.sessionId = s.id ∧ t.revokedAt = none) = [] := by
                    apply filter_map_eq_nil
                    intro t ht
                    by_cases htid : t.id = tr.id
                    · rw [if_pos htid]
                      simp
                    · rw [if_neg htid]
                      by_cases hlive : t.sessionId = s.id ∧ t.revokedAt = none
                      · exfalso
                        have htmem : t ∈ liveTokens st1.store s.id :=
                          mem_liveTokens_iff.mpr ⟨ht, hlive⟩
                        have htrmem2 : tr ∈ liveTokens st1.store s.id :=
                          mem_liveTokens_iff.mpr ⟨htrmem, hid.symm, htokrev⟩
                        have heq := eq_of_length_le_one (htok1 s.id) htmem htrmem2
                        exact htid (by rw [heq])
                      · simpa using hlive
                  rw [hnil]
                  simp
                · rw [List.filter_cons_of_neg
                    (by simp [rotated_token]; intro hc; exact hsid hc.symm)]
                  have hle := length_filter_map_le st1.store.tokens
                    (fun t => t.sessionId = sid0 ∧ t.revokedAt = none)
                    (fun t => if t.id = tr.id then
                      { tr with revokedAt := some now, replacedBy := some nid } else t)
                    (by
                      intro x hx
                      dsimp only at hx ⊢
                      by_cases hxid : x.id = tr.id
                      · rw [if_pos hxid] at hx
                        simp at hx
                      · rw [if_neg hxid])
                  exact le_trans hle (htok1 sid0)
              · have hgen : ∀ stX : Store, ∀ s1 : SessionRec,
                    (stX.sessions.map (fun x => x.id)).Nodup →
                    ((updateSession stX s1).sessions.map (fun x => x.id)).Nodup := by
                  intro stX s1 h1
                  rw [updateSession_ids]
                  exact h1
                exact hgen _ _ hkeys1.1
              · have hids : ((rotated_token s.id nid nth now ::
                      st1.store.tokens.map (fun t => if t.id = tr.id then
                        { tr with revokedAt := some now, replacedBy := some nid }
                          else t)).map (fun x => x.id)).Nodup := by
                  rw [List.map_cons, map_ids_eq _ _ _ (fun x => by
                    by_cases hxid : x.id = tr.id
                    · rw [if_pos hxid]
                      exact hxid.symm
                    · rw [if_neg hxid]), List.nodup_cons]
                  refine ⟨?_, hkeys1.2⟩
                  intro hmem
                  rw [List.mem_map] at hmem
                  obtain ⟨x, hx, hxid⟩ := hmem
                  rw [hstore] at hx
                  exact (hfnid x hx) hxid
                exact hids
        · rw [refresh_reuse_path req nid nth hfind hload hrev htokrev]
          unfold refresh_reuse_result
          exact sysInv_mono
            (log_preserves_inv _ _ _ _ (revoke_preserves_inv _ _ _ hinv1)) hclock
      · rw [refresh_sessionrevoked_path req nid nth hfind hload hrev]
        exact sysInv_mono hinv1 hclock

theorem foldl_revoke_preserves {clock : Nat} (r : String) (now : Nat)
    (l : List SessionRec) :
    ∀ st : State, SysInv st clock →
      SysInv (l.foldl (fun acc s => (revoke_session acc s r now).1) st) clock := by
  induction l with
  | nil =>
    intro st h
    exact h
  | cons a t ih =>
    intro st h
    rw [List.foldl_cons]
    exact ih _ (revoke_preserves_inv a r now h)

theorem stepOp_preserves_inv {st : State} {clock : Nat} {op : Op}
    (hinv : SysInv st clock) (hclock : clock ≤ op.time) (hfresh : freshOk st op = true) :
    SysInv (stepOp st op) op.time := by
  cases op with
  | create u req sid tid th now =>
    exact create_preserves_inv u req sid tid th hinv hclock hfresh
  | auth sid req now =>
    exact auth_preserves_inv sid req hinv hclock
  | refresh th req nid nth now =>
    exact refresh_preserves_inv th req nid nth hinv hclock hfresh
  | revoke sid r now =>
    unfold stepOp
    dsimp only
    cases hf : findSession st.store sid with
    | none =>
      exact sysInv_mono hinv hclock
    | some s =>
      exact sysInv_mono (revoke_preserves_inv s r now hinv) hclock
  | revokeAll u now =>
    unfold stepOp revoke_all_sessions
    exact sysInv_mono
      (log_preserves_inv _ _ _ _ (foldl_revoke_preserves _ _ _ _ hinv)) hclock

theorem initState_inv : SysInv initState 0 := by
  refine ⟨?_, ?_, ?_, ?_, ?_⟩
  · intro now _ k v hget
    exact absurd hget (by simp [cacheGetAt, initState])
  · intro e he
    simp [initState] at he
  · intro sid
    simp [liveTokens, initState]
  · simp [initState]
  · simp [initState]

/-- The system invariant holds in every reachable state. -/
theorem reach_inv {st : State} {clock : Nat} (h : Reach st clock) : SysInv st clock := by
  induction h with
  | init => exact initState_inv
  | step op hr hle hfresh ih => exact stepOp_preserves_inv ih hle hfresh

/-! ### Risk-score tracking through updates -/

theorem update_find_riskScore {store0 : Store} {s2 : SessionRec}
    (hv : ∀ s0, findSession store0 s2.id = some s0 → s0.riskScore ≤ s2.riskScore) :
    ∀ sid s s1, findSession store0 sid = some s →
      findSession (updateSession store0 s2) sid = some s1 →
      s.riskScore ≤ s1.riskScore := by
  intro sid s s1 hs hs1
  by_cases hk : sid = s2.id
  · subst hk
    rw [findSession_update_self store0 s2 s hs] at hs1
    cases hs1
    exact hv s hs
  · rw [findSession_update_ne store0 s2 sid hk] at hs1
    rw [hs] at hs1
    cases hs1
    exact le_refl _

theorem revoke_find_riskScore {st0 : State} {v : SessionRec} {r : String} {now : Nat}
    (hv : ∀ s0, findSession st0.store v.id = some s0 → s0.riskScore ≤ v.riskScore) :
    ∀ sid s s1, findSession st0.store sid = some s →
      findSession (revoke_session st0 v r now).1.store sid = some s1 →
      s.riskScore ≤ s1.riskScore := by
  intro sid s s1 hs hs1
  by_cases hk : sid = v.id
  · subst hk
    rw [revoke_findSession_self st0 v r now s hs] at hs1
    cases hs1
    exact hv s hs
  · rw [revoke_findSession_ne st0 v r now sid hk] at hs1
    rw [hs] at hs1
    cases hs1
    exact le_refl _

theorem find_mem_nodup_list :
    ∀ l : List SessionRec, (l.map (fun x => x.id)).Nodup → ∀ v ∈ l,
      l.find? (fun s => s.id = v.id) = some v := by
  intro l
  induction l with
  | nil =>
    intro _ v hv
    simp at hv
  | cons a t ih =>
    intro hnd v hv
    rw [List.map_cons, List.nodup_cons] at hnd
    rcases List.mem_cons.mp hv with hva | hvt
    · subst hva
      exact List.find?_cons_of_pos _ (by simp)
    · have hne : ¬ (a.id = v.id) := by
        intro he
        exact hnd.1 (he ▸ List.mem_map_of_mem (fun x => x.id) hvt)
      rw [List.find?_cons_of_neg _ (by simpa using hne)]
      exact ih hnd.2 v hvt

/-- With unique primary keys, every stored row is found under its own id. -/
theorem findSession_mem_nodup {st0 : Store}
    (hnd : (st0.sessions.map (fun x => x.id)).Nodup)
    {v : SessionRec} (hv : v ∈ st0.sessions) : findSession st0 v.id = some v :=
  find_mem_nodup_list st0.sessions hnd v hv

theorem foldl_revoke_find {r : String} {now : Nat} :
    ∀ (l : List SessionRec) (st0 : State),
      (l.map (fun x => x.id)).Nodup →
      (∀ v ∈ l, ∀ s0, findSession st0.store v.id = some s0 →
        s0.riskScore ≤ v.riskScore) →
      ∀ sid s s1, findSession st0.store sid = some s →
        findSession
          (l.foldl (fun acc v => (revoke_session acc v r now).1) st0).store sid =
          some s1 →
        s.riskScore ≤ s1.riskScore := by
  intro l
  induction l with
  | nil =>
    intro st0 _ _ sid s s1 hs hs1
    rw [List.foldl_nil] at hs1
    rw [hs] at hs1
    cases hs1
    exact le_refl _
  | cons a t ih =>
    intro st0 hnd hv sid s s1 hs hs1
    rw [List.map_cons, List.nodup_cons] at hnd
    rw [List.foldl_cons] at hs1
    by_cases hk : sid = a.id
    · subst hk
      have hmid : findSession (revoke_session st0 a r now).1.store a.id =
          some { a with revokedAt := some now } :=
        revoke_findSession_self st0 a r now s hs
      have h1 : s.riskScore ≤ a.riskScore := hv a (List.mem_cons_self a t) s hs
      have h2 := ih (revoke_session st0 a r now).1 hnd.2
        (by
          intro v hvt s0 h0
          have hne : v.id ≠ a.id := by
            intro he
            exact hnd.1 (he ▸ List.mem_map_of_mem (fun x => x.id) hvt)
          rw [revoke_findSession_ne st0 a r now v.id hne] at h0
          exact hv v (List.mem_cons_of_mem a hvt) s0 h0)
        a.id { a with revokedAt := some now } s1 hmid hs1
      exact le_trans h1 h2
    · have hmid : findSession (revoke_session st0 a r now).1.store sid = some s := by
        rw [revoke_findSession_ne st0 a r now sid hk]
        exact hs
      exact ih (revoke_session st0 a r now).1 hnd.2
        (by
          intro v hvt s0 h0
          by_cases hne : v.id = a.id
          · exfalso
            exact hnd.1 (hne ▸ List.mem_map_of_mem (fun x => x.id) hvt)
          · rw [revoke_findSession_ne st0 a r now v.id hne] at h0
            exact hv v (List.mem_cons_of_mem a hvt) s0 h0)
        sid s s1 hmid hs1

/-- The scenario state `stC` is reachable at clock 100. -/
theorem reachC : Reach stC 100 :=
  Reach.step (Op.create 7 reqBase "S1" "T1" "H1" 100) Reach.init (Nat.zero_le _) rfl

/-- C5: the risk scorer is a pure additive rule table with no cap — device
mismatch +40, client mismatch +30, user-agent mismatch +5 when the browser
family is unchanged else +20, IP mismatch +2 on same ASN else +8 on same
country else +25, absent signals contributing 0 — and a single request with
a new device id, new client id and a geo-jump IP scores 40+30+25 = 95, which
meets `REAUTH_RISK` = 70 and revokes the session on that single
`authenticate` call. -/
theorem C5_risk_scorer_table :
    (∀ (s : SessionRec) (req : RequestData),
      calculate_risk s req =
        (if req.deviceId.isSome ∧ req.deviceId ≠ s.deviceId then 40 else 0) +
        (if req.clientId.isSome ∧ req.clientId ≠ s.clientId then 30 else 0) +
        (if req.userAgentHash.isSome ∧ req.userAgentHash ≠ s.userAgentHash then
          (if req.browserFamily = s.browserFamily then 5 else 20) else 0) +
        (if req.ip.isSome ∧ req.ip ≠ s.lastIp then
          (if req.asn.isSome ∧ req.asn = s.lastAsn then 2
           else if req.country.isSome ∧ req.country = s.lastCountry then 8 else 25)
         else 0)) ∧
    calculate_risk sessC reqJump = 40 + 30 + 25 ∧
    REAUTH_RISK = 70 ∧
    (authenticate_request stC "S1" reqJump 150).2 = .error .reauthRequired ∧
    (findSession (authenticate_request stC "S1" reqJump 150).1.store "S1").map
      (fun s => s.revokedAt) = some (some 150) := by
  refine ⟨?_, rfl, rfl, rfl, rfl⟩
  intro s req
  unfold calculate_risk
  cases hd : req.deviceId <;> cases hc : req.clientId <;>
    cases hu : req.userAgentHash <;> cases hi : req.ip <;>
      simp [hd, hc, hu, hi]

/-- C6: `risk_score` starts at 0 when a session is created and is
monotonically non-decreasing under every operation applied to a reachable
state — no operation resets or decrements it. -/
theorem C6_risk_monotone :
    (∀ (st : State) (clock : Nat) (op : Op), Reach st clock → clock ≤ op.time →
      freshOk st op = true →
      ∀ sid s s1, findSession st.store sid = some s →
        findSession (stepOp st op).store sid = some s1 →
        s.riskScore ≤ s1.riskScore) ∧
    (∀ (st : State) (u : Nat) (req : RequestData) (sid tid th : String) (now : Nat)
        (s1 : SessionRec),
      findSession (stepOp st (Op.create u req sid tid th now)).store sid = some s1 →
      s1.riskScore = 0) := by
  constructor
  · intro st clock op hreach hle hfresh sid s s1 hs hs1
    obtain ⟨hcoh, hdl, htok, hkeys⟩ := reach_inv hreach
    cases op with
    | create u req csid tid th now =>
      simp only [freshOk, Bool.and_eq_true, List.all_eq_true, bne_iff_ne,
        Option.isNone_iff_eq_none] at hfresh
      obtain ⟨⟨⟨hfsid, -⟩, -⟩, -⟩ := hfresh
      have hs1' : findSession (create_session st u req csid tid th now).1.store sid =
          some s1 := hs1
      unfold findSession at hs1'
      rw [create_sessions_eq] at hs1'
      by_cases hcs : (created_session u req csid now).id = sid
      · exfalso
        have hcs2 : csid = sid := hcs
        rw [← hcs2, hfsid] at hs
        exact Option.noConfusion hs
      · rw [List.find?_cons_of_neg _ (by simpa using hcs)] at hs1'
        have h2 : findSession st.store sid = some s1 := hs1'
        rw [hs] at h2
        cases h2
        exact le_refl _
    | auth asid req now =>
      have hs1' : findSession (authenticate_request st asid req now).1.store sid =
          some s1 := hs1
      rcases hload : load_session st asid now with ⟨sOpt, st1⟩
      cases sOpt with
      | none =>
        have hfst : (authenticate_request st asid req now).1 = st1 := by
          rw [auth_none_path req hload]
        obtain ⟨heq, -, -⟩ := load_session_none hload
        rw [hfst, heq] at hs1'
        have h2 : findSession st.store sid = some s1 := hs1'
        rw [hs] at h2
        cases h2
        exact le_refl _
      | some s0 =>
        obtain ⟨hstore1, -⟩ := load_session_some hload
        by_cases hrev : s0.revokedAt = none
        · by_cases hexp : s0.expiresAt < now
          · have hfst : (authenticate_request st asid req now).1 = st1 := by
              rw [auth_expired_path req hload hrev hexp]
            rw [hfst, hstore1] at hs1'
            rw [hs] at hs1'
            cases hs1'
            exact le_refl _
          · by_cases hrisk : REAUTH_RISK ≤ s0.riskScore + calculate_risk s0 req
            · obtain ⟨hfindS, -, hid⟩ := load_session_spec hcoh hle hload
              have hfst : (authenticate_request st asid req now).1 =
                  auth_reauth_result st1 s0 req now := by
                rw [auth_reauth_path req hload hrev hexp hrisk]
              rw [hfst] at hs1'
              have hs1deep : findSession (revoke_session st1 (risk_updated s0 req now)
                  "High risk detected" now).1.store sid = some s1 := hs1'
              have hs2 : findSession st1.store sid = some s := by
                rw [hstore1]
                exact hs
              refine revoke_find_riskScore ?_ sid s s1 hs2 hs1deep
              intro s0' h0
              have hidc : (risk_updated s0 req now).id = s0.id := rfl
              have h0' : findSession st.store asid = some s0' := by
                rw [← hid, ← hstore1, ← hidc]
                exact h0
              rw [hfindS] at h0'
              cases h0'
              exact Nat.le_add_right _ _
            · obtain ⟨hfindS, -, hid⟩ := load_session_spec hcoh hle hload
              have hfst : (authenticate_request st asid req now).1 =
                  (auth_success_result st1 s0 req now).1 := by
                rw [auth_success_path req hload hrev hexp hrisk]
              rw [hfst] at hs1'
              have hs1deep : findSession (updateSession st1.store
                  (update_context (risk_updated s0 req now) req)) sid = some s1 := hs1'
              have hs2 : findSession st1.store sid = some s := by
                rw [hstore1]
                exact hs
              refine update_find_riskScore ?_ sid s s1 hs2 hs1deep
              intro s0' h0
              have hidc : (update_context (risk_updated s0 req now) req).id = s0.id :=
                update_context_id _ _
              have h0' : findSession st.store asid = some s0' := by
                rw [← hid, ← hstore1, ← hidc]
                exact h0
              rw [hfindS] at h0'
              cases h0'
              rw [update_context_riskScore]
              exact Nat.le_add_right _ _
        · have hfst : (authenticate_request st asid req now).1 = st1 := by
            rw [auth_revoked_path req hload hrev]
          rw [hfst, hstore1] at hs1'
          rw [hs] at hs1'
          cases hs1'
          exact le_refl _
    | refresh th req nid nth now =>
      have hs1' : findSession (refresh_access_token st th req nid nth now).1.store sid =
          some s1 := hs1
      cases hfind : findTokenByHash st.store th with
      | none =>
        have hfst : (refresh_access_token st th req nid nth now).1 = st := by
          rw [refresh_notoken_path req nid nth hfind]
        rw [hfst] at hs1'
        rw [hs] at hs1'
        cases hs1'
        exact le_refl _
      | some tr =>
        rcases hload : load_session st tr.sessionId now with ⟨sOpt, st1⟩
        cases sOpt with
        | none =>
          have hfst : (refresh_access_token st th req nid nth now).1 = st1 := by
            rw [refresh_sessionnone_path req nid nth hfind hload]
          obtain ⟨heq, -, -⟩ := load_session_none hload
          rw [hfst, heq] at hs1'
          rw [hs] at hs1'
          cases hs1'
          exact le_refl _
        | some s0 =>
          obtain ⟨hstore1, -⟩ := load_session_some hload
          by_cases hrev : s0.revokedAt = none
          · by_cases htokrev : tr.revokedAt = none
            · by_cases hexp : tr.expiresAt < now
              · have hfst : (refresh_access_token st th req nid nth now).1 = st1 := by
                  rw [refresh_expired_path req nid nth hfind hload hrev htokrev hexp]
                rw [hfst, hstore1] at hs1'
                rw [hs] at hs1'
                cases hs1'
                exact le_refl _
              · by_cases hrisk : REAUTH_RISK ≤ calculate_risk s0 req
                · obtain ⟨hfindS, -, hid⟩ := load_session_spec hcoh hle hload
                  have hfst : (refresh_access_token st th req nid nth now).1 =
                      refresh_suspicious_result st1 s0 req now := by
                    rw [refresh_suspicious_path req nid nth hfind hload hrev htokrev
                      hexp hrisk]
                  rw [hfst] at hs1'
                  have hs1deep : findSession (revoke_session st1 s0
                      "Suspicious activity" now).1.store sid = some s1 := hs1'
                  have hs2 : findSession st1.store sid = some s := by
                    rw [hstore1]
                    exact hs
                  refine revoke_find_riskScore ?_ sid s s1 hs2 hs1deep
                  intro s0' h0
                  have h0' : findSession st.store tr.sessionId = some s0' := by
                    rw [← hid, ← hstore1]
                    exact h0
                  rw [hfindS] at h0'
                  cases h0'
                  exact le_refl _
                · obtain ⟨hfindS, -, hid⟩ := load_session_spec hcoh hle hload
                  have hfst : (refresh_access_token st th req nid nth now).1 =
                      (refresh_success_result st1 s0 tr req nid nth now).1 := by
                    rw [refresh_rotate_path req nid nth hfind hload hrev htokrev
                      hexp hrisk]
                  rw [hfst] at hs1'
                  refine update_find_riskScore ?_ sid s s1 ?_ hs1'
                  · intro s0' h0
                    have hidc : (update_context (refresh_risk_session s0 req now)
                        req).id = s0.id := update_context_id _ _
                    have h0' : findSession st.store tr.sessionId = some s0' := by
                      rw [← hid, ← hstore1, ← hidc]
                      exact h0
                    rw [hfindS] at h0'
                    cases h0'
                    rw [update_context_riskScore]
                    exact Nat.le_add_right _ _
                  · have hs2 : findSession st1.store sid = some s := by
                      rw [hstore1]
                      exact hs
                    exact hs2
            · have hfst : (refresh_access_token st th req nid nth now).1 =
                  refresh_reuse_result st1 s0 req now := by
                rw [refresh_reuse_path req nid nth hfind hload hrev htokrev]
              rw [hfst] at hs1'
              have hs1deep : findSession (revoke_session st1 s0
                  "Refresh token reuse detected" now).1.store sid = some s1 := hs1'
              have hs2 : findSession st1.store sid = some s := by
                rw [hstore1]
                exact hs
              refine revoke_find_riskScore ?_ sid s s1 hs2 hs1deep
              intro s0' h0
              obtain ⟨hfindS, -, hid⟩ := load_session_spec hcoh hle hload
              have h0' : findSession st.store tr.sessionId = some s0' := by
                rw [← hid, ← hstore1]
                exact h0
              rw [hfindS] at h0'
              cases h0'
              exact le_refl _
          · have hfst : (refresh_access_token st th req nid nth now).1 = st1 := by
              rw [refresh_sessionrevoked_path req nid nth hfind hload hrev]
            rw [hfst, hstore1] at hs1'
            rw [hs] at hs1'
            cases hs1'
            exact le_refl _
    | revoke rsid r now =>
      cases hf : findSession st.store rsid with
      | none =>
        have hfst : stepOp st (Op.revoke rsid r now) = st := by
          unfold stepOp
          dsimp only
          rw [hf]
        rw [hfst] at hs1
        rw [hs] at hs1
        cases hs1
        exact le_refl _
      | some v =>
        have hfst : stepOp st (Op.revoke rsid r now) = (revoke_session st v r now).1 := by
          unfold stepOp
          dsimp only
          rw [hf]
        rw [hfst] at hs1
        refine revoke_find_riskScore ?_ sid s s1 hs hs1
        intro s0' h0
        rw [findSession_id hf, hf] at h0
        cases h0
        exact le_refl _
    | revokeAll u now =>
      have hs1' : findSession ((st.store.sessions.filter
          (fun x => x.userId = u ∧ x.revokedAt = none)).foldl
          (fun acc v => (revoke_session acc v "Logout all" now).1) st).store sid =
          some s1 := hs1
      refine foldl_revoke_find _ st ?_ ?_ sid s s1 hs hs1'
      · have hsub : (st.store.sessions.filter
            (fun x => x.userId = u ∧ x.revokedAt = none)).Sublist st.store.sessions :=
          List.filter_sublist _
        exact (hsub.map (fun x => x.id)).nodup hkeys.1
      · intro v hv s0 h0
        have hvmem := List.mem_of_mem_filter hv
        rw [findSession_mem_nodup hkeys.1 hvmem] at h0
        cases h0
        exact le_refl _
  · intro st u req sid tid th now s1 h
    have h2 : findSession (create_session st u req sid tid th now).1.store sid =
        some s1 := h
    unfold findSession at h2
    rw [create_sessions_eq, List.find?_cons_of_pos _ (by simp [created_session])] at h2
    cases h2
    rfl

/-- Witness for C6: a benign authenticate on the scenario session keeps the
score at its previous value, and the created session starts at 0. -/
theorem C6_risk_monotone_witness :
    sessC.riskScore ≤ ({ sessC with lastSeenAt := 150 } : SessionRec).riskScore ∧
    (created_session 7 reqBase "S1" 100).riskScore = 0 :=
  ⟨C6_risk_monotone.1 stC 100 (Op.auth "S1" reqBase 150) reachC (by decide) rfl
      "S1" sessC { sessC with lastSeenAt := 150 } rfl rfl,
   C6_risk_monotone.2 initState 7 reqBase "S1" "T1" "H1" 100
      (created_session 7 reqBase "S1" 100) rfl⟩

theorem find?_map_congr {α : Type} (l : List α) (p : α → Bool) (f : α → α)
    (h : ∀ x, p (f x) = p x) : (l.map f).find? p = (l.find? p).map f := by
  induction l with
  | nil => rfl
  | cons a t ih =>
    rw [List.map_cons]
    by_cases hpa : p a = true
    · rw [List.find?_cons_of_pos _ ((h a).trans hpa), List.find?_cons_of_pos _ hpa]
      rfl
    · rw [List.find?_cons_of_neg _ (by rw [h a]; exact hpa),
        List.find?_cons_of_neg _ hpa, ih]

theorem find?_map_congr_mem {α : Type} (l : List α) (p : α → Bool) (f : α → α)
    (h : ∀ x ∈ l, p (f x) = p x) : (l.map f).find? p = (l.find? p).map f := by
  induction l with
  | nil => rfl
  | cons a t ih =>
    rw [List.map_cons]
    have ha := h a (List.mem_cons_self a t)
    by_cases hpa : p a = true
    · rw [List.find?_cons_of_pos _ (ha.trans hpa), List.find?_cons_of_pos _ hpa]
      rfl
    · rw [List.find?_cons_of_neg _ (by rw [ha]; exact hpa),
        List.find?_cons_of_neg _ hpa,
        ih (fun x hx => h x (List.mem_cons_of_mem a hx))]

/-- Lookup structure of the token table right after a rotation. -/
theorem rotate_tokens_find (l : List RefreshTokenRec) (tr : RefreshTokenRec)
    (nid nth sid0 : String) (now : Nat)
    (hfind : l.find? (fun t => t.tokenHash = tr.tokenHash) = some tr)
    (hnd : (l.map (fun t => t.id)).Nodup)
    (htrh : tr.tokenHash ≠ nth) :
    ((rotated_token sid0 nid nth now ::
      l.map (fun t => if t.id = tr.id then
        { tr with revokedAt := some now, replacedBy := some nid } else t)).find?
      (fun t => t.tokenHash = tr.tokenHash) =
      some { tr with revokedAt := some now, replacedBy := some nid }) ∧
    ((rotated_token sid0 nid nth now ::
      l.map (fun t => if t.id = tr.id then
        { tr with revokedAt := some now, replacedBy := some nid } else t)).find?
      (fun t => t.tokenHash = nth) = some (rotated_token sid0 nid nth now)) := by
  have htrmem : tr ∈ l := List.mem_of_find?_eq_some hfind
  constructor
  · rw [List.find?_cons_of_neg _ (by
      simp only [rotated_token, decide_eq_true_eq]
      exact fun he => htrh he.symm)]
    rw [find?_map_congr_mem _ _ _ (by
      intro x hx
      by_cases hxid : x.id = tr.id
      · have hxtr : x = tr := List.inj_on_of_nodup_map hnd hx htrmem hxid
        subst hxtr
        rw [if_pos hxid]
      · rw [if_neg hxid])]
    rw [hfind]
    dsimp only [Option.map]
    rw [if_pos rfl]
  · rw [List.find?_cons_of_pos _ (by simp [rotated_token])]

/-- C7: in every reachable state each session owns at most one non-revoked
(live) refresh token — hence at most one non-revoked, non-expired one — and
the mechanism behind it: create issues exactly one token for the fresh
session, a successful refresh marks the presented token revoked and mints
its successor in the same step, and revoke leaves the session with no live
token. -/
theorem C7_token_invariant :
    (∀ (st : State) (clock : Nat), Reach st clock →
      ∀ sid, (liveTokens st.store sid).length ≤ 1) ∧
    (∀ (st : State) (u : Nat) (req : RequestData) (sid tid th : String) (now : Nat),
      freshOk st (Op.create u req sid tid th now) = true →
      (create_session st u req sid tid th now).1.store.tokens.filter
        (fun t => t.sessionId = sid) = [created_token sid tid th now]) ∧
    (∀ (st : State) (clock : Nat) (th : String) (req : RequestData)
        (nid nth : String) (now : Nat) (s1 : SessionRec) (nth1 : String),
      Reach st clock → clock ≤ now →
      freshOk st (Op.refresh th req nid nth now) = true →
      (refresh_access_token st th req nid nth now).2 = .ok (s1, nth1) →
      ∃ tr : RefreshTokenRec,
        findTokenByHash st.store th = some tr ∧ tr.revokedAt = none ∧
        findTokenByHash (refresh_access_token st th req nid nth now).1.store th =
          some { tr with revokedAt := some now, replacedBy := some nid } ∧
        findTokenByHash (refresh_access_token st th req nid nth now).1.store nth =
          some (rotated_token s1.id nid nth now)) ∧
    (∀ (st : State) (s : SessionRec) (r : String) (now : Nat),
      liveTokens (revoke_session st s r now).1.store s.id = []) := by
  refine ⟨?_, ?_, ?_, ?_⟩
  · intro st clock hreach sid
    exact (reach_inv hreach).2.2.1 sid
  · intro st u req sid tid th now hfresh
    simp only [freshOk, Bool.and_eq_true, List.all_eq_true, bne_iff_ne,
      Option.isNone_iff_eq_none] at hfresh
    obtain ⟨⟨⟨-, hftoksid⟩, -⟩, -⟩ := hfresh
    rw [create_tokens_eq,
      List.filter_cons_of_pos (by simp [created_token])]
    have hnil : st.store.tokens.filter (fun t => t.sessionId = sid) = [] := by
      rw [List.filter_eq_nil_iff]
      intro t ht
      simpa using hftoksid t ht
    rw [hnil]
  · intro st clock th req nid nth now s1 nth1 hreach hle hfresh hok
    obtain ⟨hcoh, hdl, htok, hkeys⟩ := reach_inv hreach
    simp only [freshOk, Bool.and_eq_true, List.all_eq_true, bne_iff_ne,
      Option.isNone_iff_eq_none] at hfresh
    obtain ⟨hfnth, hfnid⟩ := hfresh
    cases hfind : findTokenByHash st.store th with
    | none =>
      rw [refresh_notoken_path req nid nth hfind] at hok
      exact absurd hok (by simp)
    | some tr =>
      rcases hload : load_session st tr.sessionId now with ⟨sOpt, st1⟩
      cases sOpt with
      | none =>
        rw [refresh_sessionnone_path req nid nth hfind hload] at hok
        exact absurd hok (by simp)
      | some s0 =>
        by_cases hrev : s0.revokedAt = none
        · by_cases htokrev : tr.revokedAt = none
          · by_cases hexp : tr.expiresAt < now
            · rw [refresh_expired_path req nid nth hfind hload hrev htokrev hexp] at hok
              exact absurd hok (by simp)
            · by_cases hrisk : REAUTH_RISK ≤ calculate_risk s0 req
              · rw [refresh_suspicious_path req nid nth hfind hload hrev htokrev
                  hexp hrisk] at hok
                exact absurd hok (by simp)
              · obtain ⟨hfindS, hstore1, hid⟩ := load_session_spec hcoh hle hload
                have hpath := refresh_rotate_path req nid nth hfind hload hrev htokrev
                  hexp hrisk
                rw [hpath] at hok
                simp only [Except.ok.injEq, Prod.mk.injEq] at hok
                obtain ⟨hs1eq, hntheq⟩ := hok
                have htrh2 : tr.tokenHash = th := findTokenByHash_hash hfind
                have htrneq : tr.tokenHash ≠ nth := by
                  intro he
                  have hcontra : findTokenByHash st.store nth = none := hfnth
                  rw [← he, htrh2, hfind] at hcontra
                  exact Option.noConfusion hcontra
                have hfind1 : st1.store.tokens.find?
                    (fun t => t.tokenHash = tr.tokenHash) = some tr := by
                  rw [hstore1, htrh2]
                  exact hfind
                have hnd1 : (st1.store.tokens.map (fun t => t.id)).Nodup := by
                  rw [hstore1]
                  exact hkeys.2
                have hl := rotate_tokens_find st1.store.tokens tr nid nth s0.id now
                  hfind1 hnd1 htrneq
                refine ⟨tr, rfl, htokrev, ?_, ?_⟩
                · rw [hpath, ← htrh2]
                  exact hl.1
                · have hs1id : s1.id = s0.id := by
                    rw [← hs1eq]
                    exact update_context_id _ _
                  rw [hpath, hs1id]
                  exact hl.2
          · rw [refresh_reuse_path req nid nth hfind hload hrev htokrev] at hok
            exact absurd hok (by simp)
        · rw [refresh_sessionrevoked_path req nid nth hfind hload hrev] at hok
          exact absurd hok (by simp)
  · intro st s r now
    exact revoke_liveTokens_self st s r now

/-- Witness for C7 on the concrete scenario: the created session holds one
live token, creation yields exactly its first token, rotating H1 at t=200
revokes it and mints H2 in the same step, and revocation empties the live
set. -/
theorem C7_token_invariant_witness :
    (liveTokens stC.store "S1").length ≤ 1 ∧
    (create_session initState 7 reqBase "S1" "T1" "H1" 100).1.store.tokens.filter
      (fun t => t.sessionId = "S1") = [created_token "S1" "T1" "H1" 100] ∧
    (∃ tr : RefreshTokenRec,
      findTokenByHash stC.store "H1" = some tr ∧ tr.revokedAt = none ∧
      findTokenByHash
        (refresh_access_token stC "H1" reqBase "T2" "H2" 200).1.store "H1" =
        some { tr with revokedAt := some 200, replacedBy := some "T2" } ∧
      findTokenByHash
        (refresh_access_token stC "H1" reqBase "T2" "H2" 200).1.store "H2" =
        some (rotated_token ({ sessC with lastSeenAt := 200 } : SessionRec).id
          "T2" "H2" 200)) ∧
    liveTokens (revoke_session stC sessC "test" 150).1.store sessC.id = [] :=
  ⟨C7_token_invariant.1 stC 100 reachC "S1",
   C7_token_invariant.2.1 initState 7 reqBase "S1" "T1" "H1" 100 rfl,
   C7_token_invariant.2.2.1 stC 100 "H1" reqBase "T2" "H2" 200
     { sessC with lastSeenAt := 200 } "H2" reachC (by decide) rfl rfl,
   C7_token_invariant.2.2.2 stC sessC "test" 150⟩

/-- The executed session-cache write never changes the cache: the swallowed
serialization `TypeError` makes it a no-op in both TTL branches. -/
theorem cache_session_actual_eq (c : CacheMap) (s : SessionRec) (now : Nat) :
    cache_session_actual c s now = c := by
  unfold cache_session_actual cache_set_on_session
  split <;> rfl

/-- C8 (code-bug evaluation): as executed, `cache_session` is a no-op (the
`json.dumps` of the ORM row raises a swallowed `TypeError`), so whenever the
cache holds no entry for the session — which is always, since this is the
only session-cache write — `load_session` returns exactly the Store's row
with the state unchanged: the backfill the claim promises never lands, and a
cache hit can never occur. Evaluated at the failing input: loading valid
session S1 at t=150 succeeds from the Store, yet the cache still misses
afterwards. -/
theorem C8_cache_backfill_dead :
    (∀ (c : CacheMap) (s : SessionRec) (now : Nat),
      cache_session_actual c s now = c) ∧
    (∀ (st : State) (sid : String) (now : Nat),
      cacheGetAt st.cache sid now = none →
      load_session_actual st sid now = (findSession st.store sid, st)) ∧
    (load_session_actual stC_actual "S1" 150).1 = some sessC ∧
    cacheGetAt (load_session_actual stC_actual "S1" 150).2.cache "S1" 150 = none := by
  refine ⟨cache_session_actual_eq, ?_, rfl, rfl⟩
  intro st sid now hc
  unfold load_session_actual
  rw [hc]
  dsimp only
  cases hf : findSession st.store sid with
  | none => rfl
  | some s =>
    dsimp only
    split
    · rw [cache_session_actual_eq]
    · rfl

/-- Witness for C8: the executed load path at the failing input reads the
Store and leaves the state untouched. -/
theorem C8_cache_backfill_dead_witness :
    load_session_actual stC_actual "S1" 150 = (some sessC, stC_actual) := by
  have h := C8_cache_backfill_dead.2.1 stC_actual "S1" 150 rfl
  rw [h]
  rfl

/-- C10: an `authenticate` call that fails `ReauthRequired` is not
state-neutral beyond the revocation — the revoking commit persists the
session row with the tipping delta added to `risk_score` and `last_seen_at`
set to the request time — whereas the refresh risk-revocation path persists
the row without adding the tipping delta. -/
theorem C10_reauth_commits_delta :
    (∀ (st : State) (sid : String) (req : RequestData) (now : Nat)
        (s : SessionRec) (st1 : State),
      load_session st sid now = (some s, st1) →
      findSession st.store s.id = some s →
      s.revokedAt = none → ¬ s.expiresAt < now →
      REAUTH_RISK ≤ s.riskScore + calculate_risk s req →
      (authenticate_request st sid req now).2 = .error .reauthRequired ∧
      findSession (authenticate_request st sid req now).1.store s.id =
        some { s with riskScore := s.riskScore + calculate_risk s req,
                      lastSeenAt := now, revokedAt := some now }) ∧
    (∀ (st : State) (th : String) (req : RequestData) (nid nth : String) (now : Nat)
        (tr : RefreshTokenRec) (s : SessionRec) (st1 : State),
      findTokenByHash st.store th = some tr →
      load_session st tr.sessionId now = (some s, st1) →
      findSession st.store s.id = some s →
      s.revokedAt = none → tr.revokedAt = none → ¬ tr.expiresAt < now →
      REAUTH_RISK ≤ calculate_risk s req →
      (refresh_access_token st th req nid nth now).2 = .error .suspiciousActivity ∧
      findSession (refresh_access_token st th req nid nth now).1.store s.id =
        some { s with revokedAt := some now }) := by
  constructor
  · intro st sid req now s st1 hload hpres hrev hexp hrisk
    obtain ⟨hstore1, -⟩ := load_session_some hload
    have hpath := auth_reauth_path req hload hrev hexp hrisk
    constructor
    · rw [hpath]
    · have hfst : (authenticate_request st sid req now).1 =
          auth_reauth_result st1 s req now := by
        rw [hpath]
      rw [hfst]
      have hpres1 : findSession st1.store (risk_updated s req now).id = some s := by
        rw [hstore1]
        exact hpres
      exact revoke_findSession_self st1 (risk_updated s req now)
        "High risk detected" now s hpres1
  · intro st th req nid nth now tr s st1 hfind hload hpres hrev htokrev hexp hrisk
    obtain ⟨hstore1, -⟩ := load_session_some hload
    have hpath := refresh_suspicious_path req nid nth hfind hload hrev htokrev hexp hrisk
    constructor
    · rw [hpath]
    · have hfst : (refresh_access_token st th req nid nth now).1 =
          refresh_suspicious_result st1 s req now := by
        rw [hpath]
      rw [hfst]
      have hpres1 : findSession st1.store s.id = some s := by
        rw [hstore1]
        exact hpres
      exact revoke_findSession_self st1 s "Suspicious activity" now s hpres1

/-- Witness for C10 on the scenario session with the compound-anomaly
request at t=150: authenticate persists score 95, refresh persists score 0. -/
theorem C10_reauth_commits_delta_witness :
    ((authenticate_request stC "S1" reqJump 150).2 = .error .reauthRequired ∧
     findSession (authenticate_request stC "S1" reqJump 150).1.store sessC.id =
       some { sessC with riskScore := sessC.riskScore + calculate_risk sessC reqJump,
                         lastSeenAt := 150, revokedAt := some 150 }) ∧
    ((refresh_access_token stC "H1" reqJump "T2" "H2" 150).2 =
       .error .suspiciousActivity ∧
     findSession (refresh_access_token stC "H1" reqJump "T2" "H2" 150).1.store
       sessC.id = some { sessC with revokedAt := some 150 }) :=
  ⟨C10_reauth_commits_delta.1 stC "S1" reqJump 150 sessC stC rfl rfl rfl
      (by decide) (by decide),
   C10_reauth_commits_delta.2 stC "H1" reqJump "T2" "H2" 150
      (created_token "S1" "T1" "H1" 100) sessC stC rfl rfl rfl rfl rfl
      (by decide) (by decide)⟩

/-- C1 counterexample: after token H1 is consumed at t=200, the first replay
(t=300) fails `TokenReuseDetected`, but the second replay (t=400) fails
`SessionInvalid` — the session-revoked check precedes reuse detection — so
not every replay yields `TokenReuseDetected` as the claim states. -/
theorem C1_counterexample :
    (refresh_access_token stR "H1" reqBase "T3" "H3" 300).2 =
      .error .tokenReuseDetected ∧
    (refresh_access_token stReplay "H1" reqBase "T4" "H4" 400).2 =
      .error .sessionInvalid ∧
    AuthError.sessionInvalid ≠ AuthError.tokenReuseDetected :=
  ⟨rfl, rfl, by decide⟩

/-- C1 (amended): presenting an already-revoked token while the owning
session is still unrevoked fails `TokenReuseDetected`, revokes the session
and leaves it with no live token; every further replay finds the session
already revoked and fails `SessionInvalid` (the session stays revoked). -/
theorem C1_reuse_detection_amended :
    (∀ (st : State) (th : String) (req : RequestData) (nid nth : String) (now : Nat)
        (tr : RefreshTokenRec) (s : SessionRec) (st1 : State),
      findTokenByHash st.store th = some tr →
      load_session st tr.sessionId now = (some s, st1) →
      findSession st.store s.id = some s →
      tr.revokedAt ≠ none → s.revokedAt = none →
      (refresh_access_token st th req nid nth now).2 = .error .tokenReuseDetected ∧
      findSession (refresh_access_token st th req nid nth now).1.store s.id =
        some { s with revokedAt := some now } ∧
      liveTokens (refresh_access_token st th req nid nth now).1.store s.id = []) ∧
    (∀ (st : State) (th : String) (req : RequestData) (nid nth : String) (now : Nat)
        (tr : RefreshTokenRec) (s : SessionRec) (st1 : State),
      findTokenByHash st.store th = some tr →
      load_session st tr.sessionId now = (some s, st1) →
      s.revokedAt ≠ none →
      (refresh_access_token st th req nid nth now).2 = .error .sessionInvalid) := by
  constructor
  · intro st th req nid nth now tr s st1 hfind hload hpres htokrev hrev
    obtain ⟨hstore1, -⟩ := load_session_some hload
    have hpath := refresh_reuse_path req nid nth hfind hload hrev htokrev
    refine ⟨by rw [hpath], ?_, ?_⟩
    · have hfst : (refresh_access_token st th req nid nth now).1 =
          refresh_reuse_result st1 s req now := by
        rw [hpath]
      rw [hfst]
      have hpres1 : findSession st1.store s.id = some s := by
        rw [hstore1]
        exact hpres
      exact revoke_findSession_self st1 s "Refresh token reuse detected" now s hpres1
    · have hfst : (refresh_access_token st th req nid nth now).1 =
          refresh_reuse_result st1 s req now := by
        rw [hpath]
      rw [hfst]
      exact revoke_liveTokens_self st1 s "Refresh token reuse detected" now
  · intro st th req nid nth now tr s st1 hfind hload hrev
    rw [refresh_sessionrevoked_path req nid nth hfind hload hrev]

/-- Witness for the amended C1 on the scenario: the first replay of H1 at
t=300 tears the session down; the second replay at t=400 is rejected as
session-invalid. -/
theorem C1_reuse_detection_amended_witness :
    ((refresh_access_token stR "H1" reqBase "T3" "H3" 300).2 =
        .error .tokenReuseDetected ∧
      findSession (refresh_access_token stR "H1" reqBase "T3" "H3" 300).1.store
        ({ sessC with lastSeenAt := 200 } : SessionRec).id =
        some { { sessC with lastSeenAt := 200 } with revokedAt := some 300 } ∧
      liveTokens (refresh_access_token stR "H1" reqBase "T3" "H3" 300).1.store
        ({ sessC with lastSeenAt := 200 } : SessionRec).id = []) ∧
    (refresh_access_token stReplay "H1" reqBase "T4" "H4" 400).2 =
      .error .sessionInvalid :=
  ⟨C1_reuse_detection_amended.1 stR "H1" reqBase "T3" "H3" 300
      { id := "T1", sessionId := "S1", tokenHash := "H1",
        expiresAt := 100 + REFRESH_TOKEN_LIFETIME,
        revokedAt := some 200, replacedBy := some "T2" }
      { sessC with lastSeenAt := 200 } stR rfl rfl rfl (by decide) rfl,
   C1_reuse_detection_amended.2 stReplay "H1" reqBase "T4" "H4" 400
      { id := "T1", sessionId := "S1", tokenHash := "H1",
        expiresAt := 100 + REFRESH_TOKEN_LIFETIME,
        revokedAt := some 200, replacedBy := some "T2" }
      { sessC with lastSeenAt := 200, revokedAt := some 300 } stReplay rfl rfl
      (by decide)⟩

/-- C2 counterexample: a refresh whose updated cumulative score is
30+40 = 70 ≥ REAUTH_RISK succeeds and revokes nothing (the code tests the
fresh delta alone), and when the branch does fire it emits
`session_revoked_suspicious` and the suspicious-activity error, not
`session_revoked_risk` / `ReauthRequired`. -/
theorem C2_counterexample :
    ((refresh_access_token stA "H1" reqNewDevice "T2" "H2" 160).2.map
      (fun p => p.1.riskScore) = .ok 70) ∧
    REAUTH_RISK ≤ 70 ∧
    ((findSession (refresh_access_token stA "H1" reqNewDevice "T2" "H2" 160).1.store
      "S1").map (fun s => s.revokedAt) = some none) ∧
    (refresh_access_token stC "H1" reqJump "T2" "H2" 150).2 =
      .error .suspiciousActivity ∧
    (refresh_access_token stC "H1" reqJump "T2" "H2" 150).1.store.events.map
      (fun e => e.eventType) = ["session_created", "session_revoked_suspicious"] ∧
    AuthError.suspiciousActivity ≠ AuthError.reauthRequired :=
  ⟨rfl, by decide, rfl, rfl, rfl, by decide⟩

/-- C2 (amended): for a refresh that passes token lookup, session validity,
reuse detection and token expiry, the risk-revocation branch fires exactly
when the freshly computed delta alone is ≥ REAUTH_RISK (the stored
cumulative score is ignored); in that case the session is revoked, a
`session_revoked_suspicious` event is appended, and the call fails with the
suspicious-activity error. -/
theorem C2_refresh_risk_amended :
    ∀ (st : State) (th : String) (req : RequestData) (nid nth : String) (now : Nat)
        (tr : RefreshTokenRec) (s : SessionRec) (st1 : State),
      findTokenByHash st.store th = some tr →
      load_session st tr.sessionId now = (some s, st1) →
      findSession st.store s.id = some s →
      s.revokedAt = none → tr.revokedAt = none → ¬ tr.expiresAt < now →
      (((refresh_access_token st th req nid nth now).2 =
          .error .suspiciousActivity) ↔ REAUTH_RISK ≤ calculate_risk s req) ∧
      (REAUTH_RISK ≤ calculate_risk s req →
        findSession (refresh_access_token st th req nid nth now).1.store s.id =
          some { s with revokedAt := some now } ∧
        (refresh_access_token st th req nid nth now).1.store.events =
          st1.store.events ++
            [{ userId := s.userId, sessionId := some s.id,
               eventType := "session_revoked_suspicious", ip := req.ip,
               userAgent := req.userAgent }]) := by
  intro st th req nid nth now tr s st1 hfind hload hpres hrev htokrev hexp
  obtain ⟨hstore1, -⟩ := load_session_some hload
  constructor
  · constructor
    · intro herr
      by_cases hrisk : REAUTH_RISK ≤ calculate_risk s req
      · exact hrisk
      · exfalso
        rw [refresh_rotate_path req nid nth hfind hload hrev htokrev hexp hrisk] at herr
        exact Except.noConfusion herr
    · intro hrisk
      rw [refresh_suspicious_path req nid nth hfind hload hrev htokrev hexp hrisk]
  · intro hrisk
    have hpath := refresh_suspicious_path req nid nth hfind hload hrev htokrev hexp hrisk
    have hfst : (refresh_access_token st th req nid nth now).1 =
        refresh_suspicious_result st1 s req now := by
      rw [hpath]
    constructor
    · rw [hfst]
      have hpres1 : findSession st1.store s.id = some s := by
        rw [hstore1]
        exact hpres
      exact revoke_findSession_self st1 s "Suspicious activity" now s hpres1
    · rw [hfst]
      show (log_security_event
          (revoke_session st1 s "Suspicious activity" now).1.store
          s.userId (some s.id) "session_revoked_suspicious" req).events = _
      unfold log_security_event
      rw [revoke_events_eq]

/-- Witness for the amended C2 on the scenario session with the
compound-anomaly request (delta 95 ≥ 70) at t=150. -/
theorem C2_refresh_risk_amended_witness :
    (((refresh_access_token stC "H1" reqJump "T2" "H2" 150).2 =
        .error .suspiciousActivity) ↔ REAUTH_RISK ≤ calculate_risk sessC reqJump) ∧
    (REAUTH_RISK ≤ calculate_risk sessC reqJump →
      findSession (refresh_access_token stC "H1" reqJump "T2" "H2" 150).1.store
        sessC.id = some { sessC with revokedAt := some 150 } ∧
      (refresh_access_token stC "H1" reqJump "T2" "H2" 150).1.store.events =
        stC.store.events ++
          [{ userId := sessC.userId, sessionId := some sessC.id,
             eventType := "session_revoked_suspicious", ip := reqJump.ip,
             userAgent := reqJump.userAgent }]) :=
  C2_refresh_risk_amended stC "H1" reqJump "T2" "H2" 150
    (created_token "S1" "T1" "H1" 100) sessC stC rfl rfl rfl rfl rfl (by decide)

/-- C3 counterexample: revoking S1 again at t=160 overwrites the
`revoked_at` stamp set by the first revoke at t=150 — the second call is not
a state-preserving no-op. -/
theorem C3_counterexample :
    (findSession stRevoked1.store "S1").map (fun s => s.revokedAt) =
      some (some 150) ∧
    (findSession stRevoked2.store "S1").map (fun s => s.revokedAt) =
      some (some 160) ∧
    (some 160 : Option Nat) ≠ some 150 :=
  ⟨rfl, rfl, by decide⟩

/-- C3 (amended): a second revoke of an already-revoked session (all of
whose tokens are already revoked) changes no token, emits no event, and
touches the session row only by overwriting `revoked_at` with the current
time; when the clock has not advanced the second call is a no-op. -/
theorem C3_revoke_idempotence_amended :
    ∀ (st : State) (sid r : String) (now : Nat) (s : SessionRec) (t0 : Nat),
      findSession st.store sid = some s →
      s.revokedAt = some t0 →
      liveTokens st.store s.id = [] →
      (stepOp st (Op.revoke sid r now)).store.tokens = st.store.tokens ∧
      (stepOp st (Op.revoke sid r now)).store.events = st.store.events ∧
      findSession (stepOp st (Op.revoke sid r now)).store sid =
        some { s with revokedAt := some now } ∧
      (now = t0 →
        findSession (stepOp st (Op.revoke sid r now)).store sid = some s) := by
  intro st sid r now s t0 hfind hrevd hlive
  have hfst : stepOp st (Op.revoke sid r now) = (revoke_session st s r now).1 := by
    unfold stepOp
    dsimp only
    rw [hfind]
  have hnone : ∀ t ∈ st.store.tokens, ¬ (t.sessionId = s.id ∧ t.revokedAt = none) := by
    intro t ht
    have := List.filter_eq_nil_iff.mp hlive t ht
    simpa using this
  have htoks : (stepOp st (Op.revoke sid r now)).store.tokens = st.store.tokens := by
    rw [hfst, revoke_tokens_eq]
    have hcongr : ∀ t ∈ st.store.tokens,
        (if t.sessionId = s.id ∧ t.revokedAt = none
         then { t with revokedAt := some now } else t) = t :=
      fun t ht => if_neg (hnone t ht)
    calc st.store.tokens.map (fun t =>
          if t.sessionId = s.id ∧ t.revokedAt = none
          then { t with revokedAt := some now } else t)
        = st.store.tokens.map (fun t => t) := List.map_congr_left hcongr
      _ = st.store.tokens := by simp
  have hpres : findSession st.store s.id = some s := by
    rw [findSession_id hfind]
    exact hfind
  have hself : findSession (stepOp st (Op.revoke sid r now)).store sid =
      some { s with revokedAt := some now } := by
    rw [hfst, ← findSession_id hfind]
    exact revoke_findSession_self st s r now s hpres
  refine ⟨htoks, by rw [hfst, revoke_events_eq], hself, ?_⟩
  intro heq
  subst heq
  have hrec : ({ s with revokedAt := some now } : SessionRec) = s := by
    cases s
    simp only at hrevd
    rw [hrevd]
  rw [hself, hrec]

/-- Witness for the amended C3: the second revoke of S1 at t=160 leaves
tokens and events untouched and only refreshes the stamp. -/
theorem C3_revoke_idempotence_amended_witness :
    stRevoked2.store.tokens = stRevoked1.store.tokens ∧
    stRevoked2.store.events = stRevoked1.store.events ∧
    findSession stRevoked2.store "S1" =
      some { { sessC with revokedAt := some 150 } with revokedAt := some 160 } ∧
    ((160 : Nat) = 150 →
      findSession stRevoked2.store "S1" = some { sessC with revokedAt := some 150 }) :=
  C3_revoke_idempotence_amended stRevoked1 "S1" "test" 160
    { sessC with revokedAt := some 150 } 150 rfl rfl rfl

/-- C4 counterexample: a successful authenticate presenting a new device id
(and, in a second call, a new client id) leaves the stored fingerprint
unchanged — `device_id` stays "d1" and `client_id` stays "web" — contrary to
the claim that all fingerprint fields drift to the request values. -/
theorem C4_counterexample :
    ((authenticate_request stC "S1" reqNewDevice 150).2.map
      (fun s => s.deviceId) = .ok (some "d1")) ∧
    reqNewDevice.deviceId = some "d2" ∧
    ((findSession (authenticate_request stC "S1" reqNewDevice 150).1.store "S1").map
      (fun s => s.deviceId) = some (some "d1")) ∧
    ((findSession stA.store "S1").map (fun s => s.clientId) = some (some "web")) ∧
    reqNewClient.clientId = some "app" ∧
    (some "d1" : Option String) ≠ some "d2" :=
  ⟨rfl, rfl, rfl, rfl, rfl, by decide⟩

/-- C4 (amended): a successful authenticate updates `last_seen_at`, adds the
delta to `risk_score`, and — only when the request carries an IP — rewrites
the network triple (`last_ip` to the request IP, ASN/country to the geo
stub's nulls); the fingerprint fields (device id, client id, user-agent
hash, OS/browser family) are never updated, so later deltas are scored
against the creation-time fingerprint, not the previous request's. -/
theorem C4_authenticate_update_amended :
    ∀ (st : State) (sid : String) (req : RequestData) (now : Nat)
        (s : SessionRec) (st1 : State) (s1 : SessionRec),
      load_session st sid now = (some s, st1) →
      s.revokedAt = none → ¬ s.expiresAt < now →
      ¬ REAUTH_RISK ≤ s.riskScore + calculate_risk s req →
      (authenticate_request st sid req now).2 = .ok s1 →
      s1.deviceId = s.deviceId ∧ s1.clientId = s.clientId ∧
      s1.userAgentHash = s.userAgentHash ∧ s1.osFamily = s.osFamily ∧
      s1.browserFamily = s.browserFamily ∧
      s1.lastSeenAt = now ∧
      s1.riskScore = s.riskScore + calculate_risk s req ∧
      (req.ip = none → s1.lastIp = s.lastIp ∧ s1.lastAsn = s.lastAsn ∧
        s1.lastCountry = s.lastCountry) ∧
      (∀ ip, req.ip = some ip →
        s1.lastIp = some ip ∧ s1.lastAsn = none ∧ s1.lastCountry = none) := by
  intro st sid req now s st1 s1 hload hrev hexp hrisk hok
  rw [auth_success_path req hload hrev hexp hrisk] at hok
  have hok2 : update_context (risk_updated s req now) req = s1 := by
    simpa using hok
  subst hok2
  have hfp := update_context_fingerprint (risk_updated s req now) req
  refine ⟨hfp.1, hfp.2.1, hfp.2.2.1, hfp.2.2.2.1, hfp.2.2.2.2.1,
    hfp.2.2.2.2.2.1, update_context_riskScore _ _, ?_, ?_⟩
  · intro hip
    rw [update_context_ip_none _ _ hip]
    exact ⟨rfl, rfl, rfl⟩
  · intro ip hip
    rw [update_context_ip_some _ _ ip hip]
    exact ⟨rfl, rfl, rfl⟩

/-- Witness for the amended C4: the new-device authenticate at t=150 bumps
the score to 40 and the last-seen stamp, keeps the whole fingerprint, and
rewrites the network triple from its own IP. -/
theorem C4_authenticate_update_amended_witness :
    ({ sessC with lastSeenAt := 150, riskScore := 40 } : SessionRec).deviceId =
        sessC.deviceId ∧
    ({ sessC with lastSeenAt := 150, riskScore := 40 } : SessionRec).clientId =
        sessC.clientId ∧
    ({ sessC with lastSeenAt := 150, riskScore := 40 } : SessionRec).userAgentHash =
        sessC.userAgentHash ∧
    ({ sessC with lastSeenAt := 150, riskScore := 40 } : SessionRec).osFamily =
        sessC.osFamily ∧
    ({ sessC with lastSeenAt := 150, riskScore := 40 } : SessionRec).browserFamily =
        sessC.browserFamily ∧
    ({ sessC with lastSeenAt := 150, riskScore := 40 } : SessionRec).lastSeenAt = 150 ∧
    ({ sessC with lastSeenAt := 150, riskScore := 40 } : SessionRec).riskScore =
        sessC.riskScore + calculate_risk sessC reqNewDevice ∧
    (reqNewDevice.ip = none →
      ({ sessC with lastSeenAt := 150, riskScore := 40 } : SessionRec).lastIp =
          sessC.lastIp ∧
      ({ sessC with lastSeenAt := 150, riskScore := 40 } : SessionRec).lastAsn =
          sessC.lastAsn ∧
      ({ sessC with lastSeenAt := 150, riskScore := 40 } : SessionRec).lastCountry =
          sessC.lastCountry) ∧
    (∀ ip, reqNewDevice.ip = some ip →
      ({ sessC with lastSeenAt := 150, riskScore := 40 } : SessionRec).lastIp =
          some ip ∧
      ({ sessC with lastSeenAt := 150, riskScore := 40 } : SessionRec).lastAsn =
          none ∧
      ({ sessC with lastSeenAt := 150, riskScore := 40 } : SessionRec).lastCountry =
          none) :=
  C4_authenticate_update_amended stC "S1" reqNewDevice 150 sessC stC
    { sessC with lastSeenAt := 150, riskScore := 40 } rfl rfl (by decide)
    (by decide) rfl
